import Mathlib

/-!
# Product catalog manager

A shallow embedding of the product store (`src/store/productStore.js`), of
the listing derived from it (`src/pages/HomePage.jsx`), of the validation of
the product form (`src/components/ProductForm.jsx`), of the authentication
functions (`src/context/AuthContext.jsx`) and of the route guard
(`src/components/ProtectedRoute.jsx`), together with the JavaScript
primitives they rely on (`parseInt`, `parseFloat`, `===`, `||`, `+`, `-`, `*`,
`/`, `<`, object spread, `Set`, `sort`), followed by their properties.

Modelling conventions.

* A JavaScript number is a `JSNum`: `NaN`, the two infinities, or a finite
  value held as an exact rational (every double is one).  The operators `+`,
  `*` and `/` round their exact result with the function `roundNumber` of the
  runtime, which stands for the rounding of IEEE doubles; the numbers read by
  `parseInt` and `parseFloat` and the difference used by the comparators of
  the listing are kept exact.  `-0` is identified with `0` (the store never
  distinguishes them: both are falsy, both print as `0`, and `-0 === 0`).
* Field values are the primitive values `undefined`, `null`, booleans,
  numbers and strings.
* An object is the finite map of its own properties, `String → Option JSVal`;
  `none` is an absent property, which reads as `undefined`.
* The clock and the random source are inputs of the actions that read them.
* The remote request is an input as well: an action that awaits it takes its
  outcome as an argument, is run to completion without another action in
  between, and reports how many requests it issued.  The identity provider is
  a function argument, and an authentication function reports the call it
  made to it.
* The conversions `String(n)`, `Number(s)` and `s.toLowerCase()` and the
  rounding of arithmetic results are the fields of a `JSRuntime` argument, and `localeCompare` is an argument of the
  listing; the properties hold for every choice of them.
* A call that throws a TypeError returns `none`.
* The method `sort` is a stable insertion sort.
-/

namespace ProductStore

/-! ## JavaScript values -/

/-- A JavaScript number: `NaN`, `+Infinity`, `-Infinity` or a finite value. -/
inductive JSNum where
  | nan
  | posInf
  | negInf
  | fin (q : ℚ)
  deriving DecidableEq

/-- A primitive JavaScript value. -/
inductive JSVal where
  | undefined
  | null
  | bool (b : Bool)
  | num (n : JSNum)
  | str (s : String)
  deriving DecidableEq

/-- An object, as the map from property name to own property value. -/
abbrev JSObj := String → Option JSVal

/-- The object literal `{}`. -/
def emptyObj : JSObj := fun _ => none

/-- Property read `o.k` (or `o[k]`): an absent property reads as `undefined`. -/
def getProp (o : JSObj) (k : String) : JSVal :=
  match o k with
  | some v => v
  | none => JSVal.undefined

/-- The literal entry `k: v` written after what is already in `o`. -/
def setProp (o : JSObj) (k : String) (v : JSVal) : JSObj :=
  fun k' => if k' = k then some v else o k'

/-- The spread `{...o, ...src}`: own properties of `src` override those of `o`. -/
def spread (o src : JSObj) : JSObj :=
  fun k =>
    match src k with
    | some v => some v
    | none => o k

/-- The number `n` for an integer `n`. -/
def JSVal.ofInt (n : Int) : JSVal := JSVal.num (JSNum.fin n)

/-- ToBoolean on numbers: `NaN` and `0` are falsy. -/
def JSNum.truthy : JSNum → Bool
  | JSNum.nan => false
  | JSNum.fin q => decide (q ≠ 0)
  | _ => true

/-- ToBoolean. -/
def JSVal.truthy : JSVal → Bool
  | JSVal.undefined => false
  | JSVal.null => false
  | JSVal.bool b => b
  | JSVal.num n => n.truthy
  | JSVal.str s => decide (s ≠ "")

/-- The operator `a || b`. -/
def jsOr (a b : JSVal) : JSVal := if a.truthy then a else b

/-- Strict equality `a === b` on primitive values: `NaN` equals nothing. -/
def strictEq (a b : JSVal) : Bool :=
  match a, b with
  | JSVal.num JSNum.nan, _ => false
  | _, JSVal.num JSNum.nan => false
  | x, y => decide (x = y)

/-- The comparison `n < 0` on numbers. -/
def JSNum.isNegative : JSNum → Bool
  | JSNum.negInf => true
  | JSNum.fin q => decide (q < 0)
  | _ => false

/-- The comparison `n >= 0` on numbers (false for `NaN`). -/
def JSNum.isNonNeg : JSNum → Bool
  | JSNum.posInf => true
  | JSNum.fin q => decide (0 ≤ q)
  | _ => false

/-- A value that is a number and satisfies `v >= 0`. -/
def JSVal.isNonNegNum : JSVal → Bool
  | JSVal.num n => n.isNonNeg
  | _ => false

/-- A value that is a number and satisfies `v < 0`. -/
def JSVal.isNegNum : JSVal → Bool
  | JSVal.num n => n.isNegative
  | _ => false

/-! ## Strings and numeric parsing -/

/-- The characters skipped by `parseInt` and `parseFloat` before the number
(ECMAScript WhiteSpace and LineTerminator). -/
def isStrWhiteSpace (c : Char) : Bool :=
  let n := c.toNat
  n = 0x09 || n = 0x0A || n = 0x0B || n = 0x0C || n = 0x0D || n = 0x20 ||
  n = 0xA0 || n = 0x1680 || (0x2000 ≤ n && n ≤ 0x200A) || n = 0x2028 ||
  n = 0x2029 || n = 0x202F || n = 0x205F || n = 0x3000 || n = 0xFEFF

/-- The value of a character as a digit in the given radix, if it is one. -/
def digitValue (radix : Nat) (c : Char) : Option Nat :=
  let n := c.toNat
  let v :=
    if 48 ≤ n ∧ n ≤ 57 then some (n - 48)
    else if 97 ≤ n ∧ n ≤ 122 then some (n - 87)
    else if 65 ≤ n ∧ n ≤ 90 then some (n - 55)
    else none
  match v with
  | some d => if d < radix then some d else none
  | none => none

/-- The longest prefix of digits of the radix, as values, and the rest. -/
def spanDigits (radix : Nat) : List Char → List Nat × List Char
  | [] => ([], [])
  | c :: cs =>
    match digitValue radix c with
    | some d => let r := spanDigits radix cs; (d :: r.1, r.2)
    | none => ([], c :: cs)

/-- The number written by a list of digits, most significant first. -/
def digitsValue (radix : Nat) (ds : List Nat) : Nat :=
  ds.foldl (fun acc d => acc * radix + d) 0

/-- An optional leading sign: whether it is `-`, and the rest. -/
def splitSign : List Char → Bool × List Char
  | [] => (false, [])
  | c :: cs =>
    if c = '-' then (true, cs)
    else if c = '+' then (false, cs)
    else (false, c :: cs)

/-- An optional `0x` or `0X` prefix: the radix, and the rest. -/
def splitRadix : List Char → Nat × List Char
  | c0 :: c1 :: cs =>
    if c0 = '0' ∧ (c1 = 'x' ∨ c1 = 'X') then (16, cs) else (10, c0 :: c1 :: cs)
  | cs => (10, cs)

/-- The function `parseInt(s)` on the characters of a string, without radix
argument: leading white space, a sign, a `0x` prefix, then the longest
run of digits; `NaN` when there is no digit. -/
def parseIntChars (cs : List Char) : JSNum :=
  let s := splitSign (cs.dropWhile isStrWhiteSpace)
  let r := splitRadix s.2
  let ds := (spanDigits r.1 r.2).1
  if ds.isEmpty then JSNum.nan
  else
    let v : Int := digitsValue r.1 ds
    JSNum.fin (if s.1 then -v else v)

/-- The decimal digits of `n`, least significant first (`fuel` bounds the
number of digits). -/
def decimalDigitsRev : Nat → Nat → List Nat
  | 0, _ => []
  | fuel + 1, n => if n < 10 then [n] else (n % 10) :: decimalDigitsRev fuel (n / 10)

/-- The decimal digits of `n`, most significant first. -/
def decimalDigits (n : Nat) : List Nat := (decimalDigitsRev (n + 1) n).reverse

/-- The character of a decimal digit. -/
def digitChar (d : Nat) : Char := Char.ofNat (48 + d)

/-- The decimal rendering of a natural number. -/
def natToChars (n : Nat) : List Char := (decimalDigits n).map digitChar

/-- The decimal rendering of an integer, which is what `String(n)` gives for
an integer number `n` of magnitude below `10^21`. -/
def intToString (n : Int) : String :=
  if n < 0 then String.mk ('-' :: natToChars n.natAbs) else String.mk (natToChars n.natAbs)

/-- The first significant decimal digit of the positive rational `a / b`
below one (`fuel` bounds the number of leading zeros). -/
def leadingDigitSmall : Nat → Nat → Nat → Nat
  | 0, _, _ => 0
  | fuel + 1, a, b => if b ≤ a then a / b else leadingDigitSmall fuel (a * 10) b

/-- The integer that `parseInt` reads from `String(q)` for a finite number:
the integer part when the number prints in decimal notation
(`10^-6 ≤ |q| < 10^21`), and the leading digit when it prints in exponent
notation. -/
def parseIntOfFinite (q : ℚ) : Int :=
  let a := |q|
  let sign : Int := if q < 0 then -1 else 1
  if a = 0 then 0
  else if (10 : ℚ) ^ 21 ≤ a then sign * ((decimalDigits (a.num.toNat / a.den)).headD 0 : Nat)
  else if a * 10 ^ 6 < 1 then sign * (leadingDigitSmall a.den a.num.toNat a.den : Nat)
  else sign * ((a.num.toNat / a.den : Nat) : Int)

/-- The function `parseInt(v)`: the argument is converted to a string first. -/
def parseInt : JSVal → JSNum
  | JSVal.str s => parseIntChars s.data
  | JSVal.num (JSNum.fin q) => JSNum.fin (parseIntOfFinite q)
  | _ => JSNum.nan

/-- An exponent part `e`, `e+` or `e-` followed by digits, if there is one. -/
def parseExponent : List Char → Int
  | c :: cs =>
    if c = 'e' ∨ c = 'E' then
      let s := splitSign cs
      let ds := (spanDigits 10 s.2).1
      if ds.isEmpty then 0
      else if s.1 then -(digitsValue 10 ds : Int) else (digitsValue 10 ds : Int)
    else 0
  | [] => 0

/-- The rational `m * 10^e`. -/
def scale10 (m : ℚ) (e : Int) : ℚ :=
  if 0 ≤ e then m * 10 ^ e.toNat else m / 10 ^ (-e).toNat

/-- The function `parseFloat(s)` on the characters of a string: leading white
space, a sign, then `Infinity` or the longest decimal literal (digits, a
fraction, an exponent); `NaN` when there is none. -/
def parseFloatChars (cs : List Char) : JSNum :=
  let s := splitSign (cs.dropWhile isStrWhiteSpace)
  if "Infinity".data.isPrefixOf s.2 then (if s.1 then JSNum.negInf else JSNum.posInf)
  else
    let ip := spanDigits 10 s.2
    let fp : List Nat × List Char :=
      match ip.2 with
      | '.' :: rest => spanDigits 10 rest
      | rest => ([], rest)
    if ip.1.isEmpty ∧ fp.1.isEmpty then JSNum.nan
    else
      let m : ℚ := (digitsValue 10 (ip.1 ++ fp.1) : ℚ) / 10 ^ fp.1.length
      let v := scale10 m (parseExponent fp.2)
      JSNum.fin (if s.1 then -v else v)

/-- The function `parseFloat(v)`: the argument is converted to a string first;
a number prints to a string that parses back to the same number. -/
def parseFloat : JSVal → JSNum
  | JSVal.str s => parseFloatChars s.data
  | JSVal.num n => n
  | _ => JSNum.nan

/-- The method `s.substr(start, length)` for in-range arguments. -/
def substr (s : List Char) (start length : Nat) : List Char :=
  (s.drop start).take length

/-! ## The store state and its actions -/

/-- The state held by the store: `products`, `loading`, `error` (`none` is
`null`) and `lastFetch` (`none` is `null`). -/
structure StoreState where
  products : List JSObj
  loading : Bool
  error : Option String
  lastFetch : Option Nat

/-- The initial state of the store. -/
def initialState : StoreState :=
  { products := [], loading := false, error := none, lastFetch := none }

/-- What one call of `addProduct` reads from its environment: `Date.now()`,
`Math.random().toString(36)`, and the two `new Date().toISOString()`. -/
structure AddEnv where
  now : Nat
  random36 : String
  createdAt : String
  updatedAt : String

/-- The helper `generateId`: `Date.now() + Math.random().toString(36).substr(2, 9)`,
the decimal time followed by at most nine characters of the random string. -/
def generateId (now : Nat) (random36 : String) : JSVal :=
  JSVal.str (String.mk (natToChars now ++ substr random36.data 2 9))

/-- The test `product.id === parseInt(id) || product.id === id` shared by
`getProductById`, `updateProduct` and (negated) `deleteProduct`. -/
def matchesId (id : JSVal) (product : JSObj) : Bool :=
  strictEq (getProp product "id") (JSVal.num (parseInt id)) ||
    strictEq (getProp product "id") id

/-- The action `getProductById(id)`; `none` is the `undefined` of `find`. -/
def getProductById (id : JSVal) (s : StoreState) : Option JSObj :=
  s.products.find? (fun p => matchesId id p)

/-- The record built by `addProduct` from the submitted fields. -/
def newProduct (env : AddEnv) (productData : JSObj) : JSObj :=
  let o0 := spread emptyObj productData
  let o1 := setProp o0 "id" (generateId env.now env.random36)
  let o2 := setProp o1 "rating" (JSVal.ofInt 0)
  let o3 := setProp o2 "stock"
    (jsOr (JSVal.num (parseInt (getProp productData "stock"))) (JSVal.ofInt 0))
  let o4 := setProp o3 "price"
    (jsOr (JSVal.num (parseFloat (getProp productData "price"))) (JSVal.ofInt 0))
  let o5 := setProp o4 "createdAt" (JSVal.str env.createdAt)
  setProp o5 "updatedAt" (JSVal.str env.updatedAt)

/-- The action `addProduct(productData)`: the returned record and the new state. -/
def addProduct (env : AddEnv) (productData : JSObj) (s : StoreState) : JSObj × StoreState :=
  let products := s.products
  let created := newProduct env productData
  (created, { s with products := created :: products })

/-- The record that `updateProduct` writes in place of a matching `product`;
`updatedAt` is the `new Date().toISOString()` read for that record. -/
def mergeProduct (updatedAt : String) (updatedData product : JSObj) : JSObj :=
  let o0 := spread (spread emptyObj product) updatedData
  let o1 := setProp o0 "stock"
    (jsOr (JSVal.num (parseInt (getProp updatedData "stock"))) (getProp product "stock"))
  let o2 := setProp o1 "price"
    (jsOr (JSVal.num (parseFloat (getProp updatedData "price"))) (getProp product "price"))
  setProp o2 "updatedAt" (JSVal.str updatedAt)

/-- The action `updateProduct(id, updatedData)`; `stamp i` is the time read
when the record at position `i` is rewritten. -/
def updateProduct (stamp : Nat → String) (id : JSVal) (updatedData : JSObj)
    (s : StoreState) : StoreState :=
  let products := s.products
  let updatedProducts := products.mapIdx (fun i product =>
    if matchesId id product then mergeProduct (stamp i) updatedData product else product)
  { s with products := updatedProducts }

/-- The action `deleteProduct(id)`. -/
def deleteProduct (id : JSVal) (s : StoreState) : StoreState :=
  let products := s.products
  let numericId := JSVal.num (parseInt id)
  let updatedProducts := products.filter (fun p =>
    !(strictEq (getProp p "id") numericId) && !(strictEq (getProp p "id") id))
  { s with products := updatedProducts }

/-- The identifiers of the records of the collection, in order. -/
def productIds (s : StoreState) : List JSVal :=
  s.products.map (fun p => getProp p "id")

/-! ## Conversions and operators of the language -/

/-- The built-in conversions that the model takes as given: `String(n)` for a
number, `Number(s)` for a string, `s.toLowerCase()`, and the rounding of an
exact arithmetic result to the number that the language returns for it (the
nearest double, or an infinity on overflow).  The properties below hold for
every choice of them. -/
structure JSRuntime where
  numberToString : JSNum → String
  stringToNumber : String → JSNum
  toLowerCase : String → String
  roundNumber : ℚ → JSNum

/-- ToString on primitive values. -/
def toStr (rt : JSRuntime) : JSVal → String
  | JSVal.undefined => "undefined"
  | JSVal.null => "null"
  | JSVal.bool true => "true"
  | JSVal.bool false => "false"
  | JSVal.num n => rt.numberToString n
  | JSVal.str s => s

/-- ToNumber on primitive values. -/
def toNumber (rt : JSRuntime) : JSVal → JSNum
  | JSVal.undefined => JSNum.nan
  | JSVal.null => JSNum.fin 0
  | JSVal.bool true => JSNum.fin 1
  | JSVal.bool false => JSNum.fin 0
  | JSVal.num n => n
  | JSVal.str s => rt.stringToNumber s

/-- The sign of a number: `-1`, `0` or `1` (`0` for `NaN`). -/
def JSNum.sign : JSNum → Int
  | JSNum.nan => 0
  | JSNum.posInf => 1
  | JSNum.negInf => -1
  | JSNum.fin q => if q < 0 then -1 else if q = 0 then 0 else 1

/-- The exact sum of two numbers. -/
def JSNum.add : JSNum → JSNum → JSNum
  | JSNum.nan, _ => JSNum.nan
  | _, JSNum.nan => JSNum.nan
  | JSNum.posInf, JSNum.negInf => JSNum.nan
  | JSNum.negInf, JSNum.posInf => JSNum.nan
  | JSNum.posInf, _ => JSNum.posInf
  | _, JSNum.posInf => JSNum.posInf
  | JSNum.negInf, _ => JSNum.negInf
  | _, JSNum.negInf => JSNum.negInf
  | JSNum.fin a, JSNum.fin b => JSNum.fin (a + b)

/-- The exact product of two numbers. -/
def JSNum.mul : JSNum → JSNum → JSNum
  | JSNum.nan, _ => JSNum.nan
  | _, JSNum.nan => JSNum.nan
  | JSNum.fin a, JSNum.fin b => JSNum.fin (a * b)
  | x, y =>
    if x.sign * y.sign = 0 then JSNum.nan
    else if 0 < x.sign * y.sign then JSNum.posInf
    else JSNum.negInf

/-- The exact quotient of two numbers (a zero divisor is the positive zero). -/
def JSNum.div : JSNum → JSNum → JSNum
  | JSNum.nan, _ => JSNum.nan
  | _, JSNum.nan => JSNum.nan
  | JSNum.fin a, JSNum.fin b =>
    if b = 0 then
      (if a = 0 then JSNum.nan else if 0 < a then JSNum.posInf else JSNum.negInf)
    else JSNum.fin (a / b)
  | JSNum.fin _, _ => JSNum.fin 0
  | x, JSNum.fin b =>
    if 0 ≤ x.sign * (if b < 0 then -1 else 1) then JSNum.posInf else JSNum.negInf
  | _, _ => JSNum.nan

/-- The number that the language returns for the exact result `n` of an
arithmetic operation: a finite result is rounded. -/
def JSNum.rounded (rt : JSRuntime) : JSNum → JSNum
  | JSNum.fin q => rt.roundNumber q
  | n => n

/-- The comparison `a < b` of two numbers; false when one is `NaN`. -/
def JSNum.lt : JSNum → JSNum → Bool
  | JSNum.nan, _ => false
  | _, JSNum.nan => false
  | JSNum.fin a, JSNum.fin b => decide (a < b)
  | JSNum.posInf, _ => false
  | _, JSNum.negInf => false
  | _, _ => true

/-- The UTF-16 code units of a character. -/
def charUnits (c : Char) : List Nat :=
  if c.toNat < 0x10000 then [c.toNat]
  else [0xD800 + (c.toNat - 0x10000) / 0x400, 0xDC00 + (c.toNat - 0x10000) % 0x400]

/-- The UTF-16 code units of a string. -/
def utf16Units (s : String) : List Nat :=
  s.data.foldr (fun c acc => charUnits c ++ acc) []

/-- The lexicographic order `xs <= ys` on lists of code units. -/
def unitsLe : List Nat → List Nat → Bool
  | [], _ => true
  | _ :: _, [] => false
  | x :: xs, y :: ys => if x < y then true else if y < x then false else unitsLe xs ys

/-- The comparison `a <= b` of two strings by code units. -/
def strLe (a b : String) : Bool := unitsLe (utf16Units a) (utf16Units b)

/-- The comparison `a < b` of two strings by code units. -/
def strLt (a b : String) : Bool := !(strLe b a)

/-- The operator `a + b`: concatenation when an operand is a string, the
rounded sum of the operands as numbers otherwise. -/
def jsAdd (rt : JSRuntime) (a b : JSVal) : JSVal :=
  match a, b with
  | JSVal.str s, y => JSVal.str (s ++ toStr rt y)
  | x, JSVal.str t => JSVal.str (toStr rt x ++ t)
  | x, y => JSVal.num (((toNumber rt x).add (toNumber rt y)).rounded rt)

/-- The operator `a * b`: the rounded product. -/
def jsMul (rt : JSRuntime) (a b : JSVal) : JSVal :=
  JSVal.num (((toNumber rt a).mul (toNumber rt b)).rounded rt)

/-- The operator `a / b`: the rounded quotient. -/
def jsDiv (rt : JSRuntime) (a b : JSVal) : JSVal :=
  JSVal.num (((toNumber rt a).div (toNumber rt b)).rounded rt)

/-- The operator `a < b`: by code units when both operands are strings, as
numbers otherwise. -/
def jsLt (rt : JSRuntime) (a b : JSVal) : Bool :=
  match a, b with
  | JSVal.str s, JSVal.str t => strLt s t
  | x, y => (toNumber rt x).lt (toNumber rt y)

/-! ## Loading the collection from the remote source -/

/-- What `await fetch(API_URL)` followed by `await response.json()` comes to:
a response with `ok` whose body holds the list `data.products`, a response
whose `ok` is false, or a rejection by an error with the given `message`
(`none` when the thrown value has no message). -/
inductive FetchOutcome where
  | success (products : List JSObj)
  | notOk
  | thrown (message : Option String)

/-- The state after a call, and the number of requests the call issued. -/
structure FetchRun where
  state : StoreState
  requests : Nat

/-- The expression `message || fallback` on an optional string. -/
def messageOr (message : Option String) (fallback : String) : String :=
  match message with
  | some m => if m ≠ "" then m else fallback
  | none => fallback

/-- The action `fetchProducts(forceRefresh)`, run to completion without
another action in between; `now` is the `Date.now()` read on success. -/
def fetchProducts (forceRefresh : Bool) (outcome : FetchOutcome) (now : Nat)
    (s : StoreState) : FetchRun :=
  let products := s.products
  if products.length > 0 && !forceRefresh then { state := s, requests := 0 }
  else
    let s1 := { s with loading := true, error := none }
    match outcome with
    | FetchOutcome.success data =>
      { state := { s1 with products := data, loading := false, lastFetch := some now },
        requests := 1 }
    | FetchOutcome.notOk =>
      { state := { s1 with
          error := some (messageOr (some "Error al cargar productos")
            "Error al cargar los productos"),
          loading := false },
        requests := 1 }
    | FetchOutcome.thrown message =>
      { state := { s1 with
          error := some (messageOr message "Error al cargar los productos"),
          loading := false },
        requests := 1 }

/-- The value returned by `resetToApi`: `{ success: true }` or
`{ success: false, error: error.message }`. -/
structure ResetResult where
  success : Bool
  error : Option String

/-- The action `resetToApi()`, run to completion without another action in
between: the state and request count, and the returned value. -/
def resetToApi (outcome : FetchOutcome) (now : Nat) (s : StoreState) :
    FetchRun × ResetResult :=
  let s1 := { s with loading := true, error := none }
  match outcome with
  | FetchOutcome.success data =>
    ({ state := { s1 with products := data, loading := false, lastFetch := some now },
       requests := 1 },
     { success := true, error := none })
  | FetchOutcome.notOk =>
    ({ state := { s1 with
         error := some (messageOr (some "Error al resetear productos") "Error al resetear"),
         loading := false },
       requests := 1 },
     { success := false, error := some "Error al resetear productos" })
  | FetchOutcome.thrown message =>
    ({ state := { s1 with
         error := some (messageOr message "Error al resetear"),
         loading := false },
       requests := 1 },
     { success := false, error := message })

/-- Whether the outcome of the request is a failure. -/
def FetchOutcome.failed : FetchOutcome → Bool
  | FetchOutcome.success _ => false
  | _ => true

/-! ## Statistics -/

/-- The object returned by `getStats`. -/
structure Stats where
  total : Nat
  totalStock : JSVal
  totalValue : JSVal
  avgPrice : JSVal
  lowStock : Nat

/-- The selector `getStats()`. -/
def getStats (rt : JSRuntime) (s : StoreState) : Stats :=
  let products := s.products
  { total := products.length,
    totalStock := products.foldl
      (fun acc p => jsAdd rt acc (jsOr (getProp p "stock") (JSVal.ofInt 0))) (JSVal.ofInt 0),
    totalValue := products.foldl
      (fun acc p => jsAdd rt acc
        (jsMul rt (jsOr (getProp p "price") (JSVal.ofInt 0))
          (jsOr (getProp p "stock") (JSVal.ofInt 0)))) (JSVal.ofInt 0),
    avgPrice :=
      if products.length > 0 then
        jsDiv rt
          (products.foldl
            (fun acc p => jsAdd rt acc (jsOr (getProp p "price") (JSVal.ofInt 0)))
            (JSVal.ofInt 0))
          (JSVal.ofInt products.length)
      else JSVal.ofInt 0,
    lowStock := (products.filter
      (fun p => jsLt rt (jsOr (getProp p "stock") (JSVal.ofInt 0)) (JSVal.ofInt 10))).length }

/-- A price or stock as the data model has it: missing (`undefined` or `null`)
or a finite number. -/
def isNumberOrMissing : JSVal → Bool
  | JSVal.undefined => true
  | JSVal.null => true
  | JSVal.num (JSNum.fin _) => true
  | _ => false

/-- The value of a price or stock, a missing one counted as `0`. -/
def valueOrZero : JSVal → ℚ
  | JSVal.num (JSNum.fin q) => q
  | _ => 0

/-- The sum of a list of numbers as the language computes it: the numbers are
added in order, starting from `0`, and each partial sum is rounded. -/
def roundedSum (rt : JSRuntime) (xs : List JSNum) : JSNum :=
  xs.foldl (fun acc x => (acc.add x).rounded rt) (JSNum.fin 0)

/-- The product of two numbers as the language computes it. -/
def roundedProduct (rt : JSRuntime) (a b : ℚ) : JSNum :=
  ((JSNum.fin a).mul (JSNum.fin b)).rounded rt

/-! ## Categories, search and category filter -/

/-- The elements of `new Set(xs)` in insertion order: each value once, at the
place of its first occurrence. -/
def setOf (xs : List JSVal) : List JSVal :=
  xs.foldl (fun acc x => if x ∈ acc then acc else acc ++ [x]) []

/-- The order used by `sort()` without comparator: `undefined` last, the
other values by their strings, compared by code units. -/
def defaultSortLe (rt : JSRuntime) (a b : JSVal) : Bool :=
  if b = JSVal.undefined then true
  else if a = JSVal.undefined then false
  else strLe (toStr rt a) (toStr rt b)

/-- The method `xs.sort()` without comparator, a stable sort. -/
def defaultSort (rt : JSRuntime) (xs : List JSVal) : List JSVal :=
  xs.insertionSort (fun a b => defaultSortLe rt a b = true)

/-- The selector `getCategories()`. -/
def getCategories (rt : JSRuntime) (s : StoreState) : List JSVal :=
  let products := s.products
  let categories := setOf ((products.map (fun p => getProp p "category")).filter JSVal.truthy)
  defaultSort rt categories

/-- The method `s.trim()`. -/
def trim (s : String) : String :=
  String.mk (((s.data.dropWhile isStrWhiteSpace).reverse.dropWhile isStrWhiteSpace).reverse)

/-- Whether `needle` occurs in `hay` as a run of consecutive characters. -/
def isInfixOf (needle : List Char) : List Char → Bool
  | [] => needle.isPrefixOf []
  | c :: cs => needle.isPrefixOf (c :: cs) || isInfixOf needle cs

/-- The method `hay.includes(needle)` on strings. -/
def includes (hay needle : String) : Bool := isInfixOf needle.data hay.data

/-- The call `v.toLowerCase()`; `none` is the TypeError thrown when `v` is not
a string. -/
def callToLowerCase (rt : JSRuntime) : JSVal → Option JSVal
  | JSVal.str t => some (JSVal.str (rt.toLowerCase t))
  | _ => none

/-- The call `v?.toLowerCase()`: `undefined` when `v` is `undefined` or `null`;
`none` is the TypeError thrown when `v` is another value that is not a string. -/
def optToLowerCase (rt : JSRuntime) : JSVal → Option JSVal
  | JSVal.undefined => some JSVal.undefined
  | JSVal.null => some JSVal.undefined
  | v => callToLowerCase rt v

/-- The truth value of `v?.toLowerCase().includes(searchTerm)`; `none` is a
thrown TypeError. -/
def fieldIncludes (rt : JSRuntime) (searchTerm : String) (v : JSVal) : Option Bool :=
  match optToLowerCase rt v with
  | some (JSVal.str t) => some (includes t searchTerm)
  | some _ => some false
  | none => none

/-- The chain `a || b` of two tests, the second one evaluated only when the
first is false. -/
def orElseTest (a : Option Bool) (b : Option Bool) : Option Bool :=
  match a with
  | none => none
  | some true => some true
  | some false => b

/-- The callback of the filter of `searchProducts`. -/
def searchMatches (rt : JSRuntime) (searchTerm : String) (product : JSObj) : Option Bool :=
  orElseTest (fieldIncludes rt searchTerm (getProp product "title"))
    (orElseTest (fieldIncludes rt searchTerm (getProp product "brand"))
      (orElseTest (fieldIncludes rt searchTerm (getProp product "category"))
        (fieldIncludes rt searchTerm (getProp product "description"))))

/-- The method `xs.filter(f)` for a callback that may throw: the callback is
run on the elements in order, and a throw ends the call. -/
def filterThrow (f : JSObj → Option Bool) : List JSObj → Option (List JSObj)
  | [] => some []
  | x :: xs =>
    match f x with
    | none => none
    | some b =>
      match filterThrow f xs with
      | none => none
      | some r => some (if b then x :: r else r)

/-- The selector `searchProducts(query)` for a string `query`; `none` is a
thrown TypeError. -/
def searchProducts (rt : JSRuntime) (query : String) (s : StoreState) : Option (List JSObj) :=
  let products := s.products
  let searchTerm := trim (rt.toLowerCase query)
  if searchTerm = "" then some products
  else filterThrow (fun product => searchMatches rt searchTerm product) products

/-- The callback of the filter of `filterByCategory`. -/
def categoryMatches (rt : JSRuntime) (category : JSVal) (product : JSObj) : Option Bool :=
  match optToLowerCase rt (getProp product "category") with
  | none => none
  | some l =>
    match callToLowerCase rt category with
    | none => none
    | some r => some (strictEq l r)

/-- The selector `filterByCategory(category)`; `none` is a thrown TypeError. -/
def filterByCategory (rt : JSRuntime) (category : JSVal) (s : StoreState) :
    Option (List JSObj) :=
  let products := s.products
  if !category.truthy then some products
  else filterThrow (fun product => categoryMatches rt category product) products

/-- A text field as the data model has it: missing (`undefined` or `null`) or
a string. -/
def isTextOrMissing : JSVal → Bool
  | JSVal.undefined => true
  | JSVal.null => true
  | JSVal.str _ => true
  | _ => false

/-- Whether the value is a string that contains `term` when lower-cased. -/
def containsIgnoringCase (rt : JSRuntime) (term : String) : JSVal → Bool
  | JSVal.str t => decide (term.data <:+: (rt.toLowerCase t).data)
  | _ => false

/-- Whether the value is a string equal to `c` when both are lower-cased. -/
def equalsIgnoringCase (rt : JSRuntime) (c : String) : JSVal → Bool
  | JSVal.str t => decide (rt.toLowerCase t = rt.toLowerCase c)
  | _ => false

/-! ## The product form (`src/components/ProductForm.jsx`) -/

/-- The state `formData` of the product form: every field is the string held
by its input. -/
structure FormData where
  title : String
  description : String
  price : String
  brand : String
  category : String
  stock : String
  thumbnail : String

/-- The object `formData` as it is handed to `onSubmit`. -/
def formFields (fd : FormData) : JSObj :=
  fun k =>
    if k = "title" then some (JSVal.str fd.title)
    else if k = "description" then some (JSVal.str fd.description)
    else if k = "price" then some (JSVal.str fd.price)
    else if k = "brand" then some (JSVal.str fd.brand)
    else if k = "category" then some (JSVal.str fd.category)
    else if k = "stock" then some (JSVal.str fd.stock)
    else if k = "thumbnail" then some (JSVal.str fd.thumbnail)
    else none

/-- The read `formData[name]` of a field of the form. -/
def FormData.field (fd : FormData) (name : String) : String :=
  if name = "title" then fd.title
  else if name = "description" then fd.description
  else if name = "price" then fd.price
  else if name = "brand" then fd.brand
  else if name = "category" then fd.category
  else if name = "stock" then fd.stock
  else if name = "thumbnail" then fd.thumbnail
  else ""

/-- The property `value.length` of a string, in code units. -/
def strLength (s : String) : Nat := (utf16Units s).length

/-- The error message computed by `validateField(name, value)`, empty when the
field is accepted; `isValidUrl` tells whether `new URL(value)` succeeds. -/
def fieldError (isValidUrl : String → Bool) (name value : String) : String :=
  if name = "title" then
    (if trim value = "" then "El título es requerido"
     else if strLength value < 3 then "Mínimo 3 caracteres" else "")
  else if name = "description" then
    (if trim value = "" then "La descripción es requerida"
     else if strLength value < 10 then "Mínimo 10 caracteres" else "")
  else if name = "price" then
    (if value = "" then "El precio es requerido"
     else if (parseFloat (JSVal.str value)).lt (JSNum.fin 0) then
       "El precio no puede ser negativo"
     else "")
  else if name = "stock" then
    (if value = "" ∧ strictEq (JSVal.str value) (JSVal.ofInt 0) = false then
       "El stock es requerido"
     else if (parseInt (JSVal.str value)).lt (JSNum.fin 0) then
       "El stock no puede ser negativo"
     else "")
  else if name = "thumbnail" then
    (if value ≠ "" ∧ isValidUrl value = false then "URL inválida" else "")
  else ""

/-- The value `!error` returned by `validateField(name, value)`. -/
def validateField (isValidUrl : String → Bool) (name value : String) : Bool :=
  decide (fieldError isValidUrl name value = "")

/-- The value returned by `validateForm()`: the fields `title`, `description`,
`price` and `stock` are all accepted. -/
def validateForm (isValidUrl : String → Bool) (fd : FormData) : Bool :=
  ["title", "description", "price", "stock"].foldl
    (fun isValid field =>
      if !(validateField isValidUrl field (fd.field field)) then false else isValid)
    true

/-- The handler `handleSubmit`: `onSubmit(formData)` is called only when
`validateForm()` returns true; `none` is the early return. -/
def handleSubmit {α : Type} (isValidUrl : String → Bool) (onSubmit : JSObj → α)
    (fd : FormData) : Option α :=
  if !(validateForm isValidUrl fd) then none else some (onSubmit (formFields fd))

/-! ## Persistence of the store (`persist` options of `productStore.js`) -/

/-- A partial store state, as `set` and the persisted snapshot have it: each
key is present (`some`) or absent (`none`). -/
structure PartialState where
  products : Option (List JSObj)
  loading : Option Bool
  error : Option (Option String)
  lastFetch : Option (Option Nat)

/-- The option `partialize` of the persist middleware: the snapshot that is
written to storage. -/
def partialize (state : StoreState) : PartialState :=
  { products := some state.products,
    loading := none,
    error := none,
    lastFetch := some state.lastFetch }

/-- The keys present in a partial state. -/
def PartialState.keys (p : PartialState) : List String :=
  (if p.products.isSome then ["products"] else []) ++
  (if p.loading.isSome then ["loading"] else []) ++
  (if p.error.isSome then ["error"] else []) ++
  (if p.lastFetch.isSome then ["lastFetch"] else [])

/-- Modelled from the spec: the rehydration done by the persist middleware,
which is not part of the sources.  The snapshot read from local storage is
the snapshot that was written, and its keys are laid over the initial state
(spec, sections 3 and 6: hydrated from durable local storage, a serialized
snapshot of products and lastFetch, read once at startup). -/
def rehydrate (initial : StoreState) (snapshot : PartialState) : StoreState :=
  { products := snapshot.products.getD initial.products,
    loading := snapshot.loading.getD initial.loading,
    error := snapshot.error.getD initial.error,
    lastFetch := snapshot.lastFetch.getD initial.lastFetch }

/-! ## Authentication (`src/context/AuthContext.jsx`) -/

/-- The table `translations` of `translateError`. -/
def translations : List (String × String) :=
  [("Invalid login credentials", "Credenciales inválidas. Verifica tu email y contraseña."),
   ("Email not confirmed", "Por favor confirma tu email antes de iniciar sesión."),
   ("User already registered", "Este email ya está registrado."),
   ("Password should be at least 6 characters",
     "La contraseña debe tener al menos 6 caracteres."),
   ("Unable to validate email address: invalid format", "El formato del email no es válido."),
   ("Signup requires a valid password", "La contraseña es requerida."),
   ("Anonymous sign-ins are disabled", "El registro anónimo está deshabilitado."),
   ("Email rate limit exceeded", "Demasiados intentos. Espera unos minutos."),
   ("For security purposes, you can only request this once every 60 seconds",
     "Por seguridad, espera 60 segundos antes de intentar nuevamente.")]

/-- The names of the members that an object literal inherits from
`Object.prototype`; each of them is a function or an object. -/
def objectPrototypeMembers : List String :=
  ["constructor", "hasOwnProperty", "isPrototypeOf", "propertyIsEnumerable",
   "toLocaleString", "toString", "valueOf", "__proto__", "__defineGetter__",
   "__defineSetter__", "__lookupGetter__", "__lookupSetter__"]

/-- What `translateError` returns: a string, or the member of
`Object.prototype` of the given name. -/
inductive Translated where
  | text (s : String)
  | inherited (name : String)
  deriving DecidableEq

/-- The helper `translateError(message)`: `translations[message] || message`.
The read `translations[message]` gives the own entry of the table, else the
inherited member of that name, else `undefined`. -/
def translateError (message : String) : Translated :=
  match translations.lookup message with
  | some translation =>
    if translation ≠ "" then Translated.text translation else Translated.text message
  | none =>
    if message ∈ objectPrototypeMembers then Translated.inherited message
    else Translated.text message

/-- A call made to the identity provider. -/
inductive ProviderCall (μ : Type) where
  | signInWithPassword (email password : String)
  | signUp (email password : String) (metadata : μ)
  | resetPasswordForEmail (email redirectTo : String)

/-- What a call to the identity provider comes to: it resolves to
`{ data, error }`, `error` being `null` (`none`) or an error with a message,
or it rejects with an error with a message. -/
inductive ProviderOutcome (δ : Type) where
  | resolved (data : δ) (error : Option String)
  | rejected (message : String)

/-- The value returned by `signIn`, `signUp` and `resetPassword`:
`{ data, error }`, with `none` for `null`; the error holds the translated
message. -/
structure AuthResult (δ : Type) where
  data : Option δ
  error : Option Translated

/-- A run of one of the functions: the call it made and the value it returned. -/
structure AuthRun (δ μ : Type) where
  sent : ProviderCall μ
  result : AuthResult δ

/-- The body shared by the three functions after the call: `if (error) throw
error`, `return { data, error: null }`, and the `catch` that returns the
translated message. -/
def settle {δ : Type} : ProviderOutcome δ → AuthResult δ
  | ProviderOutcome.resolved data none => { data := some data, error := none }
  | ProviderOutcome.resolved _ (some message) =>
    { data := none, error := some (translateError message) }
  | ProviderOutcome.rejected message =>
    { data := none, error := some (translateError message) }

/-- The function `signIn(email, password)`; `provider` is the identity
provider. -/
def signIn {δ μ : Type} (rt : JSRuntime) (provider : ProviderCall μ → ProviderOutcome δ)
    (email password : String) : AuthRun δ μ :=
  let call := ProviderCall.signInWithPassword (rt.toLowerCase (trim email)) password
  { sent := call, result := settle (provider call) }

/-- The function `signUp(email, password, metadata)`. -/
def signUp {δ μ : Type} (rt : JSRuntime) (provider : ProviderCall μ → ProviderOutcome δ)
    (email password : String) (metadata : μ) : AuthRun δ μ :=
  let call := ProviderCall.signUp (rt.toLowerCase (trim email)) password metadata
  { sent := call, result := settle (provider call) }

/-- The function `resetPassword(email)`; `origin` is `window.location.origin`. -/
def resetPassword {δ μ : Type} (rt : JSRuntime) (provider : ProviderCall μ → ProviderOutcome δ)
    (origin email : String) : AuthRun δ μ :=
  let call := ProviderCall.resetPasswordForEmail (rt.toLowerCase (trim email))
    (origin ++ "/reset-password")
  { sent := call, result := settle (provider call) }

/-! ## The route guard (`src/components/ProtectedRoute.jsx`) -/

/-- What the guard renders: the loading indicator, a `Navigate` element, or
the children. -/
inductive Rendered (χ loc : Type) where
  | authLoading
  | navigate (target : String) (stateFrom : loc) (replace : Bool)
  | children (c : χ)

/-- The default value of the property `redirectTo` of `ProtectedRoute`. -/
def defaultRedirectTo : String := "/login"

/-- The component `ProtectedRoute`; `user` (`none` is `null`) and `loading`
come from `useAuth()`, `location` from `useLocation()`. -/
def ProtectedRoute {χ loc υ : Type} (children : χ) (redirectTo : String)
    (user : Option υ) (loading : Bool) (location : loc) : Rendered χ loc :=
  if loading then Rendered.authLoading
  else if user.isNone then Rendered.navigate redirectTo location true
  else Rendered.children children

/-! ## The product listing (`filteredProducts` of `src/pages/HomePage.jsx`) -/

/-- The opposite of a number. -/
def JSNum.neg : JSNum → JSNum
  | JSNum.nan => JSNum.nan
  | JSNum.posInf => JSNum.negInf
  | JSNum.negInf => JSNum.posInf
  | JSNum.fin q => JSNum.fin (-q)

/-- The difference of two numbers. -/
def JSNum.sub (a b : JSNum) : JSNum := a.add b.neg

/-- The operator `a - b`, as the exact difference: the listing uses it only
through its sign, which is the sign of the difference that the language
returns. -/
def jsSub (rt : JSRuntime) (a b : JSVal) : JSVal :=
  JSVal.num ((toNumber rt a).sub (toNumber rt b))

/-- The callback of the search filter of the listing:
`p.title?.toLowerCase().includes(search) || p.brand?... || p.description?...`. -/
def viewSearchMatches (rt : JSRuntime) (search : String) (p : JSObj) : Option Bool :=
  orElseTest (fieldIncludes rt search (getProp p "title"))
    (orElseTest (fieldIncludes rt search (getProp p "brand"))
      (fieldIncludes rt search (getProp p "description")))

/-- The comparison `(a[k] || 0) - (b[k] || 0)` of two records by a numeric
property. -/
def compareNumbers (rt : JSRuntime) (k : String) (a b : JSObj) : JSVal :=
  jsSub rt (jsOr (getProp a k) (JSVal.ofInt 0)) (jsOr (getProp b k) (JSVal.ofInt 0))

/-- The comparison `(a.title || '').localeCompare(b.title || '')`; `none` is
the TypeError thrown when the receiver is not a string; `localeCompare` is
the collation of the platform. -/
def compareTitles (rt : JSRuntime) (localeCompare : String → String → Int) (a b : JSObj) :
    Option JSVal :=
  match jsOr (getProp a "title") (JSVal.str "") with
  | JSVal.str s =>
    some (JSVal.ofInt (localeCompare s (toStr rt (jsOr (getProp b "title") (JSVal.str "")))))
  | _ => none

/-- The comparator that the `switch (sortBy)` hands to `sort`, `none` for the
default branch. -/
def comparator (rt : JSRuntime) (localeCompare : String → String → Int) (sortBy : String) :
    Option (JSObj → JSObj → Option JSVal) :=
  if sortBy = "price-asc" then some (fun a b => some (compareNumbers rt "price" a b))
  else if sortBy = "price-desc" then some (fun a b => some (compareNumbers rt "price" b a))
  else if sortBy = "name-asc" then some (fun a b => compareTitles rt localeCompare a b)
  else if sortBy = "name-desc" then some (fun a b => compareTitles rt localeCompare b a)
  else if sortBy = "rating" then some (fun a b => some (compareNumbers rt "rating" b a))
  else if sortBy = "stock" then some (fun a b => some (compareNumbers rt "stock" b a))
  else none

/-- Whether `sort` keeps `a` before `b` for the value `v` returned by the
comparator on `(a, b)`: the value, as a number, is not positive (`NaN` counts
as `0`). -/
def keepsOrder (rt : JSRuntime) (v : JSVal) : Bool :=
  !((JSNum.fin 0).lt (toNumber rt v))

/-- The insertion of `a` into a sorted list, before the first element that
the comparator does not put before `a`; a throw of the comparator ends it. -/
def orderedInsertThrow (rt : JSRuntime) (cmp : JSObj → JSObj → Option JSVal) (a : JSObj) :
    List JSObj → Option (List JSObj)
  | [] => some [a]
  | b :: l =>
    match cmp a b with
    | none => none
    | some v =>
      if keepsOrder rt v then some (a :: b :: l)
      else
        match orderedInsertThrow rt cmp a l with
        | none => none
        | some r => some (b :: r)

/-- The method `xs.sort(cmp)`, as a stable insertion sort; `none` when the
comparator throws. -/
def sortThrow (rt : JSRuntime) (cmp : JSObj → JSObj → Option JSVal) :
    List JSObj → Option (List JSObj)
  | [] => some []
  | b :: l =>
    match sortThrow rt cmp l with
    | none => none
    | some sorted => orderedInsertThrow rt cmp b sorted

/-- The memo `filteredProducts` of the listing page, from the collection of
the store and the states `searchTerm`, `selectedCategory` and `sortBy`;
`none` is a thrown TypeError. -/
def filteredProducts (rt : JSRuntime) (localeCompare : String → String → Int)
    (s : StoreState) (searchTerm selectedCategory sortBy : String) : Option (List JSObj) :=
  let result := s.products
  let searched :=
    if trim searchTerm ≠ "" then
      let search := rt.toLowerCase searchTerm
      filterThrow (fun p => viewSearchMatches rt search p) result
    else some result
  match searched with
  | none => none
  | some result =>
    let result :=
      if selectedCategory ≠ "" then
        result.filter (fun p => strictEq (getProp p "category") (JSVal.str selectedCategory))
      else result
    match comparator rt localeCompare sortBy with
    | some cmp => sortThrow rt cmp result
    | none => some result

/-- The title of a record, a missing or empty one read as the empty string. -/
def titleOrEmpty : JSVal → String
  | JSVal.str s => s
  | _ => ""

/-! ## Sample data used by the concrete evaluations -/

/-- An object given by the list of its properties (earlier entries win). -/
def objOf (props : List (String × JSVal)) : JSObj :=
  fun k => props.lookup k

/-- A first call environment: a clock value and a random string. -/
def sampleEnvA : AddEnv :=
  { now := 1700000000000, random36 := "0.4fzyo82mvyr",
    createdAt := "2023-11-14T22:13:20.000Z", updatedAt := "2023-11-14T22:13:20.000Z" }

/-- A second call in the same millisecond, with another random number that
agrees with the first on its leading base-36 digits. -/
def sampleEnvB : AddEnv :=
  { now := 1700000000000, random36 := "0.4fzyo82mvzz",
    createdAt := "2023-11-14T22:13:20.000Z", updatedAt := "2023-11-14T22:13:20.000Z" }

/-- The fields submitted by the product form: every value is a string. -/
def sampleFields : JSObj :=
  objOf [("title", JSVal.str "Phone"), ("description", JSVal.str "A small phone"),
    ("price", JSVal.str "100"), ("brand", JSVal.str ""), ("category", JSVal.str "tech"),
    ("stock", JSVal.str "5"), ("thumbnail", JSVal.str "")]

/-- Fields with a negative price and a negative stock. -/
def negativeFields : JSObj :=
  objOf [("title", JSVal.str "Phone"), ("price", JSVal.str "-5"), ("stock", JSVal.str "-3")]

/-- Fields whose price and stock are not numbers. -/
def nonNumericFields : JSObj :=
  objOf [("title", JSVal.str "Phone"), ("price", JSVal.str "abc")]

/-- The record `{id: 1, title: "Phone", price: 100, stock: 5, category: "tech"}`. -/
def phone : JSObj :=
  objOf [("id", JSVal.ofInt 1), ("title", JSVal.str "Phone"), ("price", JSVal.ofInt 100),
    ("stock", JSVal.ofInt 5), ("category", JSVal.str "tech")]

/-- The record `{id: 2, title: "Desk", price: 50, stock: 20, category: "furniture"}`. -/
def desk : JSObj :=
  objOf [("id", JSVal.ofInt 2), ("title", JSVal.str "Desk"), ("price", JSVal.ofInt 50),
    ("stock", JSVal.ofInt 20), ("category", JSVal.str "furniture")]

/-- The scenario collection: the phone, then the desk. -/
def scenarioState : StoreState :=
  { products := [phone, desk], loading := false, error := none, lastFetch := some 1700000000000 }

/-- The record `{id: 5, title: "Lamp"}`, with a numeric identifier. -/
def lamp : JSObj := objOf [("id", JSVal.ofInt 5), ("title", JSVal.str "Lamp")]

/-- The record `{id: "5", title: "Lamp"}`, with a string identifier. -/
def lampStringId : JSObj := objOf [("id", JSVal.str "5"), ("title", JSVal.str "Lamp")]

/-- A collection whose only record has the numeric identifier `5`. -/
def numericFiveState : StoreState :=
  { products := [lamp], loading := false, error := none, lastFetch := none }

/-- A collection whose only record has the string identifier `"5"`. -/
def stringFiveState : StoreState :=
  { products := [lampStringId], loading := false, error := none, lastFetch := none }

/-- The time stamp read by every rewrite of a sample update. -/
def sampleStamp : Nat → String := fun _ => "2023-11-15T08:00:00.000Z"

/-- A runtime for the concrete evaluations.  Its conversions agree with those
of the language on the arguments the evaluations use: ASCII strings for the
lower-casing; `NaN`, the infinities and integers for the rendering of a
number; plain decimal literals for the reading of a string as a number;
integers of small magnitude, which are doubles, for the rounding. -/
def sampleRuntime : JSRuntime :=
  { numberToString := fun n =>
      match n with
      | JSNum.nan => "NaN"
      | JSNum.posInf => "Infinity"
      | JSNum.negInf => "-Infinity"
      | JSNum.fin q => intToString (parseIntOfFinite q),
    stringToNumber := fun s => parseFloatChars s.data,
    toLowerCase := fun s => String.mk (s.data.map Char.toLower),
    roundNumber := fun q => JSNum.fin q }

/-- The record `{id: 3, title: "Cable"}`, without price and stock. -/
def cable : JSObj := objOf [("id", JSVal.ofInt 3), ("title", JSVal.str "Cable")]

/-- The scenario collection followed by the cable. -/
def threeProductsState : StoreState :=
  { products := [phone, desk, cable], loading := false, error := none, lastFetch := none }

/-- A form filled with a valid product. -/
def sampleForm : FormData :=
  { title := "Phone", description := "A small phone", price := "100", brand := "",
    category := "tech", stock := "5", thumbnail := "" }

/-- A form whose stock is negative. -/
def negativeStockForm : FormData :=
  { title := "Phone", description := "A small phone", price := "100", brand := "",
    category := "tech", stock := "-3", thumbnail := "" }

/-- A check of URLs for the concrete evaluations: the text starts with `http`. -/
def sampleIsValidUrl (s : String) : Bool := "http".data.isPrefixOf s.data

/-- The record `{id: 1700000000000, title: "Clock"}`, whose numeric identifier
is a time in milliseconds. -/
def clockRecord : JSObj :=
  objOf [("id", JSVal.ofInt 1700000000000), ("title", JSVal.str "Clock")]

/-- A collection whose only record is `clockRecord`. -/
def clockState : StoreState :=
  { products := [clockRecord], loading := false, error := none, lastFetch := none }

/-- A call environment whose random string starts with a letter. -/
def sampleEnvC : AddEnv :=
  { now := 1700000000000, random36 := "0.k3j9x2mq1zt",
    createdAt := "2023-11-14T22:13:20.000Z", updatedAt := "2023-11-14T22:13:20.000Z" }

/-- An identity provider for the concrete evaluations: it rejects the
password `"wrong"` and signs every other request in. -/
def sampleProvider : ProviderCall Unit → ProviderOutcome String
  | ProviderCall.signInWithPassword email password =>
    if password = "wrong" then ProviderOutcome.resolved "" (some "Invalid login credentials")
    else ProviderOutcome.resolved email none
  | ProviderCall.signUp email _ _ => ProviderOutcome.resolved email none
  | ProviderCall.resetPasswordForEmail _ _ => ProviderOutcome.rejected "Email rate limit exceeded"

/-- A collation for the concrete evaluations: the order by code units, which
is the order of `localeCompare` on words of lower-case ASCII letters. -/
def sampleLocaleCompare (a b : String) : Int :=
  if strLt a b then -1 else if strLt b a then 1 else 0

/-! ## Properties of the JavaScript primitives -/

theorem getProp_setProp_same (o : JSObj) (k : String) (v : JSVal) :
    getProp (setProp o k v) k = v := by
  simp [getProp, setProp]

theorem getProp_setProp_of_ne (o : JSObj) (k k' : String) (v : JSVal) (h : k' ≠ k) :
    getProp (setProp o k v) k' = getProp o k' := by
  simp [getProp, setProp, h]

theorem spread_emptyObj (o : JSObj) : spread emptyObj o = o := by
  funext k
  simp only [spread, emptyObj]
  cases o k <;> rfl

theorem strictEq_eq_of_true {a b : JSVal} (h : strictEq a b = true) : a = b := by
  unfold strictEq at h
  split at h
  · exact absurd h (by simp)
  · exact absurd h (by simp)
  · simpa using h

theorem strictEq_self {a : JSVal} (h : a ≠ JSVal.num JSNum.nan) : strictEq a a = true := by
  unfold strictEq
  split
  · exact absurd rfl h
  · exact absurd rfl h
  · simp

theorem jsOr_num_nan (b : JSVal) : jsOr (JSVal.num JSNum.nan) b = b := by
  simp [jsOr, JSVal.truthy, JSNum.truthy]

theorem jsOr_num_zero (b : JSVal) : jsOr (JSVal.num (JSNum.fin 0)) b = b := by
  simp [jsOr, JSVal.truthy, JSNum.truthy]

theorem jsOr_num_of_negative {n : JSNum} (h : n.isNegative = true) (b : JSVal) :
    jsOr (JSVal.num n) b = JSVal.num n := by
  cases n with
  | nan => simp [JSNum.isNegative] at h
  | posInf => simp [JSNum.isNegative] at h
  | negInf => simp [jsOr, JSVal.truthy, JSNum.truthy]
  | fin q =>
    have hq : q < 0 := by simpa [JSNum.isNegative] using h
    simp [jsOr, JSVal.truthy, JSNum.truthy, ne_of_lt hq]

/-- The number `n || fallback` is non-negative exactly when `n` is not
negative, for a non-negative fallback. -/
theorem jsOr_num_isNonNegNum (n : JSNum) (b : JSVal) (hb : b.isNonNegNum = true) :
    (jsOr (JSVal.num n) b).isNonNegNum = !n.isNegative := by
  cases n with
  | nan => simp [jsOr, JSVal.truthy, JSNum.truthy, JSNum.isNegative, hb]
  | posInf => simp [jsOr, JSVal.truthy, JSNum.truthy, JSNum.isNegative, JSVal.isNonNegNum, JSNum.isNonNeg]
  | negInf => simp [jsOr, JSVal.truthy, JSNum.truthy, JSNum.isNegative, JSVal.isNonNegNum, JSNum.isNonNeg]
  | fin q =>
    by_cases hq : q = 0
    · subst hq
      simp [jsOr, JSVal.truthy, JSNum.truthy, JSNum.isNegative, hb]
    · rcases lt_or_le q 0 with hneg | hpos
      · simp [jsOr, JSVal.truthy, JSNum.truthy, JSNum.isNegative, JSVal.isNonNegNum,
          JSNum.isNonNeg, hq, hneg, not_le.mpr hneg]
      · simp [jsOr, JSVal.truthy, JSNum.truthy, JSNum.isNegative, JSVal.isNonNegNum,
          JSNum.isNonNeg, hq, hpos, not_lt.mpr hpos]

/-! ## Properties of the store actions -/

theorem getProp_mergeProduct_price (t : String) (f p : JSObj) :
    getProp (mergeProduct t f p) "price" =
      jsOr (JSVal.num (parseFloat (getProp f "price"))) (getProp p "price") := by
  simp [mergeProduct, getProp, setProp]

theorem getProp_mergeProduct_stock (t : String) (f p : JSObj) :
    getProp (mergeProduct t f p) "stock" =
      jsOr (JSVal.num (parseInt (getProp f "stock"))) (getProp p "stock") := by
  simp [mergeProduct, getProp, setProp]

theorem getProp_mergeProduct_updatedAt (t : String) (f p : JSObj) :
    getProp (mergeProduct t f p) "updatedAt" = JSVal.str t := by
  simp [mergeProduct, getProp, setProp]

theorem mergeProduct_other (t : String) (f p : JSObj) (k : String)
    (h1 : k ≠ "stock") (h2 : k ≠ "price") (h3 : k ≠ "updatedAt") :
    mergeProduct t f p k = spread p f k := by
  simp [mergeProduct, setProp, h1, h2, h3, spread_emptyObj]

theorem getProp_newProduct_price (env : AddEnv) (f : JSObj) :
    getProp (newProduct env f) "price" =
      jsOr (JSVal.num (parseFloat (getProp f "price"))) (JSVal.ofInt 0) := by
  simp [newProduct, getProp, setProp]

theorem getProp_newProduct_stock (env : AddEnv) (f : JSObj) :
    getProp (newProduct env f) "stock" =
      jsOr (JSVal.num (parseInt (getProp f "stock"))) (JSVal.ofInt 0) := by
  simp [newProduct, getProp, setProp]

theorem getProp_newProduct_id (env : AddEnv) (f : JSObj) :
    getProp (newProduct env f) "id" = generateId env.now env.random36 := by
  simp [newProduct, getProp, setProp]

theorem updateProduct_getElem? (stamp : Nat → String) (id : JSVal) (f : JSObj)
    (s : StoreState) (i : Nat) :
    (updateProduct stamp id f s).products[i]? =
      (s.products[i]?).map (fun p =>
        if matchesId id p then mergeProduct (stamp i) f p else p) := by
  simp [updateProduct]

theorem isNonNegNum_ofInt_zero : (JSVal.ofInt 0).isNonNegNum = true := by
  simp [JSVal.ofInt, JSVal.isNonNegNum, JSNum.isNonNeg]

/-- C1: two `addProduct` calls in the same millisecond whose random numbers
share their leading base-36 digits return the same identifier, so the
identifier returned by the second call is already in the collection. -/
theorem addProduct_generated_id_collides :
    sampleEnvA.random36 ≠ sampleEnvB.random36 ∧
    getProp (addProduct sampleEnvB sampleFields
        (addProduct sampleEnvA sampleFields initialState).2).1 "id"
      = JSVal.str "17000000000004fzyo82mv" ∧
    getProp (addProduct sampleEnvB sampleFields
        (addProduct sampleEnvA sampleFields initialState).2).1 "id"
      ∈ productIds (addProduct sampleEnvA sampleFields initialState).2 := by
  decide

/-- C2 (as stated, refuted): a field record with price `"-5"` and stock `"-3"`
is stored by `addProduct` with price `-5` and stock `-3`, not `0`. -/
theorem addProduct_negative_not_clamped :
    getProp (addProduct sampleEnvA negativeFields initialState).1 "price" = JSVal.ofInt (-5) ∧
    getProp (addProduct sampleEnvA negativeFields initialState).1 "stock" = JSVal.ofInt (-3) ∧
    (getProp (addProduct sampleEnvA negativeFields initialState).1 "price").isNonNegNum = false ∧
    (getProp (addProduct sampleEnvA negativeFields initialState).1 "stock").isNonNegNum = false := by
  decide!

/-- C2 (amended): `addProduct` stores price `0` (stock `0`) when the supplied
price (stock) is not numeric, that is when `parseFloat` (`parseInt`) gives
`NaN`; a supplied negative price (stock) is stored as it parses; hence the
created product has price `>= 0` (stock `>= 0`) exactly when the supplied
price (stock) does not parse to a negative number. -/
theorem addProduct_price_stock_coercion (env : AddEnv) (f : JSObj) (s : StoreState) :
    (parseFloat (getProp f "price") = JSNum.nan →
      getProp (addProduct env f s).1 "price" = JSVal.ofInt 0) ∧
    (parseInt (getProp f "stock") = JSNum.nan →
      getProp (addProduct env f s).1 "stock" = JSVal.ofInt 0) ∧
    ((parseFloat (getProp f "price")).isNegative = true →
      getProp (addProduct env f s).1 "price" = JSVal.num (parseFloat (getProp f "price"))) ∧
    ((parseInt (getProp f "stock")).isNegative = true →
      getProp (addProduct env f s).1 "stock" = JSVal.num (parseInt (getProp f "stock"))) ∧
    (getProp (addProduct env f s).1 "price").isNonNegNum
      = !(parseFloat (getProp f "price")).isNegative ∧
    (getProp (addProduct env f s).1 "stock").isNonNegNum
      = !(parseInt (getProp f "stock")).isNegative := by
  simp only [addProduct, getProp_newProduct_price, getProp_newProduct_stock]
  refine ⟨?_, ?_, ?_, ?_, ?_, ?_⟩
  · intro h
    rw [h, jsOr_num_nan]
  · intro h
    rw [h, jsOr_num_nan]
  · intro h
    exact jsOr_num_of_negative h _
  · intro h
    exact jsOr_num_of_negative h _
  · exact jsOr_num_isNonNegNum _ _ isNonNegNum_ofInt_zero
  · exact jsOr_num_isNonNegNum _ _ isNonNegNum_ofInt_zero

/-- C2 (amended), at concrete inputs: the price `"abc"` and the absent stock
are stored as `0`, the price `"-5"` and the stock `"-3"` as `-5` and `-3`. -/
theorem addProduct_price_stock_coercion_witness :
    (parseFloat (getProp nonNumericFields "price") = JSNum.nan ∧
      getProp (addProduct sampleEnvA nonNumericFields scenarioState).1 "price" = JSVal.ofInt 0) ∧
    (parseInt (getProp nonNumericFields "stock") = JSNum.nan ∧
      getProp (addProduct sampleEnvA nonNumericFields scenarioState).1 "stock" = JSVal.ofInt 0) ∧
    ((parseFloat (getProp negativeFields "price")).isNegative = true ∧
      getProp (addProduct sampleEnvA negativeFields scenarioState).1 "price"
        = JSVal.num (parseFloat (getProp negativeFields "price"))) ∧
    ((parseInt (getProp negativeFields "stock")).isNegative = true ∧
      getProp (addProduct sampleEnvA negativeFields scenarioState).1 "stock"
        = JSVal.num (parseInt (getProp negativeFields "stock"))) :=
  ⟨⟨by decide,
      (addProduct_price_stock_coercion sampleEnvA nonNumericFields scenarioState).1 (by decide)⟩,
    ⟨by decide,
      (addProduct_price_stock_coercion sampleEnvA nonNumericFields scenarioState).2.1 (by decide)⟩,
    ⟨by decide!,
      (addProduct_price_stock_coercion sampleEnvA negativeFields scenarioState).2.2.1 (by decide!)⟩,
    ⟨by decide!,
      (addProduct_price_stock_coercion sampleEnvA negativeFields scenarioState).2.2.2.1
        (by decide!)⟩⟩

/-- C3 (as stated, refuted): on the scenario collection, where the phone has
price `100`, `updateProduct(1, {price: -5})` leaves the phone with the
negative price `-5`. -/
theorem updateProduct_negative_price_stored :
    (getProp phone "price").isNonNegNum = true ∧
    matchesId (JSVal.ofInt 1) phone = true ∧
    ((updateProduct sampleStamp (JSVal.ofInt 1) (objOf [("price", JSVal.ofInt (-5))])
        scenarioState).products.map (fun p => getProp p "price"))
      = [JSVal.ofInt (-5), JSVal.ofInt 50] ∧
    (JSVal.ofInt (-5)).isNonNegNum = false := by
  decide!

/-- C3 (amended): for a record matching `id` whose price is non-negative,
after `updateProduct(id, fields)` the record at the same position has a
non-negative price exactly when the supplied price does not parse to a
negative number, and a supplied negative price is stored as the new price. -/
theorem updateProduct_price_nonneg_iff (stamp : Nat → String) (id : JSVal) (f : JSObj)
    (s : StoreState) (i : Nat) (p : JSObj)
    (hp : s.products[i]? = some p) (hm : matchesId id p = true)
    (hprev : (getProp p "price").isNonNegNum = true) :
    ∃ r, (updateProduct stamp id f s).products[i]? = some r ∧
      (getProp r "price").isNonNegNum = !(parseFloat (getProp f "price")).isNegative ∧
      ((parseFloat (getProp f "price")).isNegative = true →
        getProp r "price" = JSVal.num (parseFloat (getProp f "price"))) := by
  refine ⟨mergeProduct (stamp i) f p, ?_, ?_, ?_⟩
  · rw [updateProduct_getElem?, hp]
    simp [hm]
  · rw [getProp_mergeProduct_price]
    exact jsOr_num_isNonNegNum _ _ hprev
  · intro h
    rw [getProp_mergeProduct_price]
    exact jsOr_num_of_negative h _

/-- C3 (amended), at a concrete input: the phone of the scenario collection,
updated with the form fields (price `"100"`), keeps a non-negative price. -/
theorem updateProduct_price_nonneg_iff_witness :
    scenarioState.products[0]? = some phone ∧
    matchesId (JSVal.str "1") phone = true ∧
    (getProp phone "price").isNonNegNum = true ∧
    ∃ r, (updateProduct sampleStamp (JSVal.str "1") sampleFields scenarioState).products[0]?
        = some r ∧
      (getProp r "price").isNonNegNum
        = !(parseFloat (getProp sampleFields "price")).isNegative ∧
      ((parseFloat (getProp sampleFields "price")).isNegative = true →
        getProp r "price" = JSVal.num (parseFloat (getProp sampleFields "price"))) :=
  ⟨rfl, by decide, by decide!,
    updateProduct_price_nonneg_iff sampleStamp (JSVal.str "1") sampleFields scenarioState 0
      phone rfl (by decide) (by decide!)⟩

/-- C4: on the scenario collection, `updateProduct("1", {stock: "0", price: "0"})`
supplies a stock and a price that coerce to the number `0`, yet the phone
keeps its previous stock `5` and price `100`, while a stock and a price that
coerce to `7` and `9.5` are written. -/
theorem updateProduct_zero_not_written :
    parseInt (JSVal.str "0") = JSNum.fin 0 ∧
    parseFloat (JSVal.str "0") = JSNum.fin 0 ∧
    ((updateProduct sampleStamp (JSVal.str "1")
        (objOf [("stock", JSVal.str "0"), ("price", JSVal.str "0")])
        scenarioState).products.map (fun p => (getProp p "stock", getProp p "price")))
      = [(JSVal.ofInt 5, JSVal.ofInt 100), (JSVal.ofInt 20, JSVal.ofInt 50)] ∧
    ((updateProduct sampleStamp (JSVal.str "1")
        (objOf [("stock", JSVal.str "7"), ("price", JSVal.str "9.5")])
        scenarioState).products.map (fun p => (getProp p "stock", getProp p "price")))
      = [(JSVal.ofInt 7, JSVal.num (JSNum.fin (19 / 2))), (JSVal.ofInt 20, JSVal.ofInt 50)] := by
  decide!

/-! ### `parseInt` reads back the decimal rendering of an integer -/

theorem decimalDigitsRev_lt (fuel : Nat) : ∀ n d, d ∈ decimalDigitsRev fuel n → d < 10 := by
  induction fuel with
  | zero => intro n d h; simp [decimalDigitsRev] at h
  | succ fuel ih =>
    intro n d h
    unfold decimalDigitsRev at h
    split at h
    · simp at h; omega
    · rcases List.mem_cons.mp h with h | h
      · omega
      · exact ih _ _ h

theorem decimalDigitsRev_ne_nil (fuel n : Nat) : decimalDigitsRev (fuel + 1) n ≠ [] := by
  unfold decimalDigitsRev
  split <;> simp

theorem decimalDigitsRev_value (fuel : Nat) : ∀ n, n < fuel →
    (decimalDigitsRev fuel n).foldr (fun d acc => acc * 10 + d) 0 = n := by
  induction fuel with
  | zero => intro n h; omega
  | succ fuel ih =>
    intro n h
    unfold decimalDigitsRev
    split
    · simp
    · rw [List.foldr_cons, ih (n / 10) (by omega)]
      omega

theorem digitsValue_decimalDigits (n : Nat) : digitsValue 10 (decimalDigits n) = n := by
  unfold digitsValue decimalDigits
  rw [List.foldl_reverse]
  exact decimalDigitsRev_value (n + 1) n (by omega)

theorem decimalDigits_lt (n d : Nat) (h : d ∈ decimalDigits n) : d < 10 :=
  decimalDigitsRev_lt (n + 1) n d (by simpa [decimalDigits] using h)

theorem decimalDigits_ne_nil (n : Nat) : decimalDigits n ≠ [] := by
  simp [decimalDigits, decimalDigitsRev_ne_nil]

theorem digitValue_digitChar (d : Nat) (h : d < 10) : digitValue 10 (digitChar d) = some d := by
  interval_cases d <;> rfl

theorem digitChar_plain (d : Nat) (h : d < 10) :
    isStrWhiteSpace (digitChar d) = false ∧ digitChar d ≠ '-' ∧ digitChar d ≠ '+' ∧
      digitChar d ≠ 'x' ∧ digitChar d ≠ 'X' := by
  interval_cases d <;> decide

theorem spanDigits_digitChars (ds : List Nat) (h : ∀ d ∈ ds, d < 10) :
    spanDigits 10 (ds.map digitChar) = (ds, []) := by
  induction ds with
  | nil => rfl
  | cons d ds ih =>
    have hd := digitValue_digitChar d (h d (List.mem_cons_self _ _))
    have ih' := ih (fun x hx => h x (List.mem_cons_of_mem _ hx))
    simp [spanDigits, hd, ih']

theorem splitRadix_digitChars (ds : List Nat) (h : ∀ d ∈ ds, d < 10) :
    splitRadix (ds.map digitChar) = (10, ds.map digitChar) := by
  match ds, h with
  | [], _ => rfl
  | [_], _ => rfl
  | d0 :: d1 :: rest, h =>
    have h1 := digitChar_plain d1 (h d1 (by simp))
    simp [splitRadix, h1.2.2.2.1, h1.2.2.2.2]

theorem parseIntChars_digitChars (ds : List Nat) (h : ∀ d ∈ ds, d < 10) (hne : ds ≠ []) :
    parseIntChars (ds.map digitChar) = JSNum.fin (digitsValue 10 ds) ∧
    parseIntChars ('-' :: ds.map digitChar) = JSNum.fin (-(digitsValue 10 ds : ℚ)) := by
  obtain ⟨d, rest, rfl⟩ := List.exists_cons_of_ne_nil hne
  have hd := digitChar_plain d (h d (by simp))
  have hsp := spanDigits_digitChars (d :: rest) h
  have hr := splitRadix_digitChars (d :: rest) h
  simp only [List.map_cons] at hsp hr
  constructor
  · simp [parseIntChars, List.dropWhile, hd.1, splitSign, hd.2.1, hd.2.2.1, hr, hsp]
  · have hminus : isStrWhiteSpace '-' = false := by decide
    simp [parseIntChars, List.dropWhile, hminus, splitSign, hr, hsp]

/-- The function `parseInt` reads an integer back from its decimal rendering. -/
theorem parseInt_intToString (n : Int) :
    parseInt (JSVal.str (intToString n)) = JSNum.fin n := by
  have h := parseIntChars_digitChars (decimalDigits n.natAbs)
    (decimalDigits_lt n.natAbs) (decimalDigits_ne_nil n.natAbs)
  rw [digitsValue_decimalDigits] at h
  unfold intToString
  by_cases hn : n < 0
  · simp only [hn, if_true, parseInt, natToChars, h.2]
    congr 1
    rw [Nat.cast_natAbs, abs_of_neg hn]
    push_cast
    ring
  · simp only [hn, if_false, parseInt, natToChars, h.1]
    congr 1
    rw [Nat.cast_natAbs, abs_of_nonneg (not_lt.mp hn)]

theorem strictEq_false_of_ne {a b : JSVal} (h : a ≠ b) : strictEq a b = false := by
  cases hs : strictEq a b with
  | false => rfl
  | true => exact absurd (strictEq_eq_of_true hs) h

/-- C5 (as stated, refuted): the collection holds one record, with identifier
`5`; the id `"5abc"` is neither `5` nor its decimal string `"5"`, yet
`deleteProduct("5abc")` removes the record. -/
theorem deleteProduct_integer_prefix_removes :
    productIds numericFiveState = [JSVal.ofInt 5] ∧
    JSVal.str "5abc" ≠ JSVal.ofInt 5 ∧
    JSVal.str "5abc" ≠ JSVal.str (intToString 5) ∧
    (deleteProduct (JSVal.str "5abc") numericFiveState).products.length = 0 := by
  decide

/-- C5 (amended): when no record has an identifier equal to `id` or to the
number `parseInt(id)`, `deleteProduct(id)` returns the state unchanged: the
same records in the same order, and the same `loading`, `error` and
`lastFetch`. -/
theorem deleteProduct_absent_unchanged (id : JSVal) (s : StoreState)
    (h : ∀ p ∈ s.products,
      getProp p "id" ≠ id ∧ getProp p "id" ≠ JSVal.num (parseInt id)) :
    deleteProduct id s = s := by
  have hf : s.products.filter (fun p =>
      !(strictEq (getProp p "id") (JSVal.num (parseInt id))) &&
        !(strictEq (getProp p "id") id)) = s.products := by
    apply List.filter_eq_self.mpr
    intro p hp
    simp [strictEq_false_of_ne (h p hp).1, strictEq_false_of_ne (h p hp).2]
  simp only [deleteProduct, hf]

/-- C5 (amended), at a concrete input: `deleteProduct("7")` on the scenario
collection, whose identifiers are `1` and `2`. -/
theorem deleteProduct_absent_unchanged_witness :
    (∀ p ∈ scenarioState.products,
      getProp p "id" ≠ JSVal.str "7" ∧ getProp p "id" ≠ JSVal.num (parseInt (JSVal.str "7"))) ∧
    deleteProduct (JSVal.str "7") scenarioState = scenarioState :=
  ⟨by decide, deleteProduct_absent_unchanged (JSVal.str "7") scenarioState (by decide)⟩

/-- C6 (as stated, refuted): a record stored with the string identifier `"5"`
is found by `"5"` but not by the number `5`. -/
theorem getProductById_string_id_not_found_by_number :
    productIds stringFiveState = [JSVal.str "5"] ∧
    (getProductById (JSVal.str "5") stringFiveState).isSome = true ∧
    (getProductById (JSVal.ofInt 5) stringFiveState).isNone = true := by
  decide

/-- C6 (amended): let `p` be a record of the collection and the only record
matching the key.  When the key is `p`'s own identifier (a number other than
`NaN`, or a string), or the decimal string of `p`'s integer identifier,
`getProductById(key)` returns `p`. -/
theorem getProductById_finds (key : JSVal) (s : StoreState) (p : JSObj)
    (hp : p ∈ s.products)
    (honly : ∀ r ∈ s.products, matchesId key r = true → r = p)
    (hkey : (key = getProp p "id" ∧ getProp p "id" ≠ JSVal.num JSNum.nan) ∨
      (∃ n : Int, getProp p "id" = JSVal.ofInt n ∧ key = JSVal.str (intToString n))) :
    getProductById key s = some p := by
  have hmatch : matchesId key p = true := by
    rcases hkey with ⟨hk, hnan⟩ | ⟨n, hid, hk⟩
    · subst hk
      simp [matchesId, strictEq_self hnan]
    · have hself : strictEq (JSVal.ofInt n) (JSVal.ofInt n) = true :=
        strictEq_self (by simp [JSVal.ofInt])
      subst hk
      simp only [matchesId, hid, parseInt_intToString, Bool.or_eq_true]
      exact Or.inl hself
  unfold getProductById
  cases hfind : s.products.find? (fun p => matchesId key p) with
  | none =>
    have := List.find?_eq_none.mp hfind p hp
    simp [hmatch] at this
  | some r =>
    have hr : matchesId key r = true := by
      simpa using List.find?_some hfind
    rw [honly r (List.mem_of_find?_eq_some hfind) hr]

/-- C6 (amended), at a concrete input: the record stored with the numeric
identifier `5` is found by the string `"5"`. -/
theorem getProductById_finds_witness :
    lamp ∈ numericFiveState.products ∧
    (∀ r ∈ numericFiveState.products, matchesId (JSVal.str "5") r = true → r = lamp) ∧
    getProp lamp "id" = JSVal.ofInt 5 ∧ JSVal.str "5" = JSVal.str (intToString 5) ∧
    getProductById (JSVal.str "5") numericFiveState = some lamp :=
  ⟨List.mem_singleton.mpr rfl,
    fun r hr _ => List.mem_singleton.mp hr,
    by decide, by decide,
    getProductById_finds (JSVal.str "5") numericFiveState lamp
      (List.mem_singleton.mpr rfl) (fun r hr _ => List.mem_singleton.mp hr)
      (Or.inr ⟨5, by decide, by decide⟩)⟩

theorem getProp_mergeProduct_id_of_not_supplied (t : String) (f p : JSObj)
    (h : f "id" = none) : getProp (mergeProduct t f p) "id" = getProp p "id" := by
  simp [getProp, mergeProduct_other t f p "id" (by decide) (by decide) (by decide), spread, h]

theorem productIds_updateProduct_of_not_supplied (stamp : Nat → String) (id : JSVal)
    (f : JSObj) (s : StoreState) (h : f "id" = none) :
    productIds (updateProduct stamp id f s) = productIds s := by
  apply List.ext_getElem?
  intro i
  simp only [productIds, List.getElem?_map, updateProduct_getElem?]
  cases s.products[i]? with
  | none => rfl
  | some p =>
    simp only [Option.map_some']
    split
    · rw [getProp_mergeProduct_id_of_not_supplied _ _ _ h]
    · rfl

/-- C7 (as stated, refuted): the scenario collection has the distinct
identifiers `1` and `2`; after `updateProduct(1, {id: 2})` both records have
the identifier `2`. -/
theorem updateProduct_supplied_id_breaks_uniqueness :
    (productIds scenarioState).Nodup ∧
    productIds (updateProduct sampleStamp (JSVal.ofInt 1) (objOf [("id", JSVal.ofInt 2)])
      scenarioState) = [JSVal.ofInt 2, JSVal.ofInt 2] ∧
    ¬ (productIds (updateProduct sampleStamp (JSVal.ofInt 1) (objOf [("id", JSVal.ofInt 2)])
      scenarioState)).Nodup := by
  decide!

/-- C7 (amended): if the identifiers of the collection are pairwise distinct,
they are still pairwise distinct after `deleteProduct(id)` for every id, after
`updateProduct(id, fields)` for every id and every field record that does not
supply `id`, and after an `addProduct(fields)` whose generated identifier is
not already in the collection. -/
theorem id_uniqueness_preserved (s : StoreState) (h : (productIds s).Nodup)
    (id : JSVal) (f : JSObj) (stamp : Nat → String) (env : AddEnv) :
    (productIds (deleteProduct id s)).Nodup ∧
    (f "id" = none → (productIds (updateProduct stamp id f s)).Nodup) ∧
    (generateId env.now env.random36 ∉ productIds s →
      (productIds (addProduct env f s).2).Nodup) := by
  refine ⟨?_, ?_, ?_⟩
  · exact h.sublist ((List.filter_sublist _).map _)
  · intro hf
    rw [productIds_updateProduct_of_not_supplied stamp id f s hf]
    exact h
  · intro hfresh
    have : productIds (addProduct env f s).2
        = generateId env.now env.random36 :: productIds s := by
      simp [productIds, addProduct, getProp_newProduct_id]
    rw [this]
    exact List.nodup_cons.mpr ⟨hfresh, h⟩

/-- C7 (amended), at a concrete input: the scenario collection, the id `"1"`
and the fields submitted by the product form. -/
theorem id_uniqueness_preserved_witness :
    (productIds scenarioState).Nodup ∧
    sampleFields "id" = none ∧
    generateId sampleEnvA.now sampleEnvA.random36 ∉ productIds scenarioState ∧
    (productIds (deleteProduct (JSVal.str "1") scenarioState)).Nodup ∧
    (productIds (updateProduct sampleStamp (JSVal.str "1") sampleFields scenarioState)).Nodup ∧
    (productIds (addProduct sampleEnvA sampleFields scenarioState).2).Nodup :=
  ⟨by decide, by decide, by decide,
    (id_uniqueness_preserved scenarioState (by decide) (JSVal.str "1") sampleFields
      sampleStamp sampleEnvA).1,
    (id_uniqueness_preserved scenarioState (by decide) (JSVal.str "1") sampleFields
      sampleStamp sampleEnvA).2.1 (by decide),
    (id_uniqueness_preserved scenarioState (by decide) (JSVal.str "1") sampleFields
      sampleStamp sampleEnvA).2.2 (by decide)⟩

/-- C8: for every collection and field record, also one that supplies `id` or
`rating`, `addProduct` returns a record whose id is generated by the call: the
string made of the decimal digits of the clock value followed by the (at most
nine) characters that follow the first two of the random string, whatever the
field record and the collection are; its rating is `0` and its `createdAt` and
`updatedAt` are the time stamps read by the call; the collection afterwards is
that record followed by the previous records in their order, and the rest of
the state is unchanged. -/
theorem addProduct_creates_and_prepends (env : AddEnv) (f : JSObj) (s : StoreState) :
    getProp (addProduct env f s).1 "id" =
      JSVal.str (String.mk ((decimalDigits env.now).map (fun d => Char.ofNat (48 + d)) ++
        (env.random36.data.drop 2).take 9)) ∧
    (decimalDigits env.now).foldl (fun acc d => acc * 10 + d) 0 = env.now ∧
    (decimalDigits env.now).all (fun d => decide (d < 10)) = true ∧
    decimalDigits env.now ≠ [] ∧
    getProp (addProduct env f s).1 "id" ≠ JSVal.undefined ∧
    getProp (addProduct sampleEnvA f s).1 "id" = JSVal.str "17000000000004fzyo82mv" ∧
    getProp (addProduct env f s).1 "id" = generateId env.now env.random36 ∧
    getProp (addProduct env f s).1 "rating" = JSVal.ofInt 0 ∧
    getProp (addProduct env f s).1 "createdAt" = JSVal.str env.createdAt ∧
    getProp (addProduct env f s).1 "updatedAt" = JSVal.str env.updatedAt ∧
    (addProduct env f s).2.products = (addProduct env f s).1 :: s.products ∧
    (addProduct env f s).2.loading = s.loading ∧
    (addProduct env f s).2.error = s.error ∧
    (addProduct env f s).2.lastFetch = s.lastFetch := by
  have hid : ∀ e : AddEnv, getProp (addProduct e f s).1 "id" = generateId e.now e.random36 := by
    intro e
    simp [addProduct, getProp_newProduct_id]
  have hall : (decimalDigits env.now).all (fun d => decide (d < 10)) = true := by
    rw [List.all_eq_true]
    intro d hd
    simpa using decimalDigits_lt env.now d hd
  refine ⟨?_, digitsValue_decimalDigits env.now, hall, decimalDigits_ne_nil env.now, ?_, ?_,
    hid env, ?_, ?_, ?_, ?_, ?_, ?_, ?_⟩
  · rw [hid env]
    rfl
  · rw [hid env]
    simp [generateId]
  · rw [hid sampleEnvA]
    decide
  all_goals simp [addProduct, newProduct, getProp, setProp]

/-- C9: for a record matching `id` and a field name other than `stock`,
`price` and `updatedAt`, after `updateProduct(id, fields)` the record at the
same position has the value of `fields` for that name when `fields` supplies
it and its previous value otherwise, and its `updatedAt` is the time stamp
read by the update. -/
theorem updateProduct_merges_fields (stamp : Nat → String) (id : JSVal) (f : JSObj)
    (s : StoreState) (i : Nat) (p : JSObj) (k : String)
    (hp : s.products[i]? = some p) (hm : matchesId id p = true)
    (h1 : k ≠ "stock") (h2 : k ≠ "price") (h3 : k ≠ "updatedAt") :
    ∃ r, (updateProduct stamp id f s).products[i]? = some r ∧
      (∀ v, f k = some v → r k = some v ∧ getProp r k = v) ∧
      (f k = none → r k = p k ∧ getProp r k = getProp p k) ∧
      getProp r "updatedAt" = JSVal.str (stamp i) := by
  refine ⟨mergeProduct (stamp i) f p, ?_, ?_, ?_, ?_⟩
  · rw [updateProduct_getElem?, hp]
    simp [hm]
  · intro v hv
    simp [getProp, mergeProduct_other _ f p k h1 h2 h3, spread, hv]
  · intro hv
    simp [getProp, mergeProduct_other _ f p k h1 h2 h3, spread, hv]
  · exact getProp_mergeProduct_updatedAt _ _ _

/-- C9, at a concrete input: updating the phone of the scenario collection
with the form fields keeps its `id`, which the form does not supply. -/
theorem updateProduct_merges_fields_witness :
    scenarioState.products[0]? = some phone ∧
    matchesId (JSVal.str "1") phone = true ∧
    ∃ r, (updateProduct sampleStamp (JSVal.str "1") sampleFields scenarioState).products[0]?
        = some r ∧
      (∀ v, sampleFields "id" = some v → r "id" = some v ∧ getProp r "id" = v) ∧
      (sampleFields "id" = none → r "id" = phone "id" ∧ getProp r "id" = getProp phone "id") ∧
      getProp r "updatedAt" = JSVal.str (sampleStamp 0) :=
  ⟨rfl, by decide,
    updateProduct_merges_fields sampleStamp (JSVal.str "1") sampleFields scenarioState 0
      phone "id" rfl (by decide) (by decide) (by decide) (by decide)⟩

/-- C10: `updateProduct(id, fields)` keeps the length of the collection,
leaves every record that does not match `id` unchanged at its position
(a matching record is rewritten at its position), and leaves `loading`,
`error` and `lastFetch` unchanged; when no record matches, the state after
the call equals the state before it. -/
theorem updateProduct_frame (stamp : Nat → String) (id : JSVal) (f : JSObj)
    (s : StoreState) :
    (updateProduct stamp id f s).products.length = s.products.length ∧
    (∀ (i : Nat) (p : JSObj), s.products[i]? = some p → matchesId id p = false →
      (updateProduct stamp id f s).products[i]? = some p) ∧
    (∀ (i : Nat) (p : JSObj), s.products[i]? = some p → matchesId id p = true →
      (updateProduct stamp id f s).products[i]? = some (mergeProduct (stamp i) f p)) ∧
    (updateProduct stamp id f s).loading = s.loading ∧
    (updateProduct stamp id f s).error = s.error ∧
    (updateProduct stamp id f s).lastFetch = s.lastFetch ∧
    ((∀ p ∈ s.products, matchesId id p = false) → updateProduct stamp id f s = s) := by
  refine ⟨by simp [updateProduct], ?_, ?_, rfl, rfl, rfl, ?_⟩
  · intro i p hp hm
    rw [updateProduct_getElem?, hp]
    simp [hm]
  · intro i p hp hm
    rw [updateProduct_getElem?, hp]
    simp [hm]
  · intro hall
    have hprod : (updateProduct stamp id f s).products = s.products := by
      apply List.ext_getElem?
      intro i
      rw [updateProduct_getElem?]
      cases hi : s.products[i]? with
      | none => rfl
      | some p =>
        have hmem : p ∈ s.products := List.getElem?_mem hi
        simp [hall p hmem]
    cases s
    simp only [updateProduct] at hprod ⊢
    simp only [hprod]

/-- C10, at a concrete input: `updateProduct("7", fields)` on the scenario
collection, where no record matches, returns the state unchanged. -/
theorem updateProduct_frame_witness :
    (∀ p ∈ scenarioState.products, matchesId (JSVal.str "7") p = false) ∧
    updateProduct sampleStamp (JSVal.str "7") sampleFields scenarioState = scenarioState :=
  ⟨by decide,
    (updateProduct_frame sampleStamp (JSVal.str "7") sampleFields scenarioState).2.2.2.2.2.2
      (by decide)⟩

/-- C11: after `deleteProduct(id)` the collection is the previous collection
filtered to the records that do not match `id`: it is a sublist of the
previous collection (same relative order) whose members are exactly the
records whose identifier is strictly equal neither to `id` nor to
`parseInt(id)`; `loading`, `error` and `lastFetch` are unchanged. -/
theorem deleteProduct_keeps_exactly_non_matching (id : JSVal) (s : StoreState) :
    (deleteProduct id s).products = s.products.filter (fun p => !matchesId id p) ∧
    (deleteProduct id s).products.Sublist s.products ∧
    (∀ p, p ∈ (deleteProduct id s).products ↔
      p ∈ s.products ∧ strictEq (getProp p "id") id = false ∧
        strictEq (getProp p "id") (JSVal.num (parseInt id)) = false) ∧
    (deleteProduct id s).loading = s.loading ∧
    (deleteProduct id s).error = s.error ∧
    (deleteProduct id s).lastFetch = s.lastFetch := by
  refine ⟨?_, ?_, ?_, rfl, rfl, rfl⟩
  · simp only [deleteProduct, matchesId, Bool.not_or]
  · exact List.filter_sublist _
  · intro p
    simp only [deleteProduct, List.mem_filter, Bool.and_eq_true, Bool.not_eq_true']
    tauto

/-- C12: when the collection is not empty and `forceRefresh` is false,
`fetchProducts` issues no request and returns the state unchanged; hence a
`fetchProducts()` that leaves a non-empty collection, followed by a second
`fetchProducts()`, issues at most one request in total. -/
theorem fetchProducts_fetch_once (o1 o2 : FetchOutcome) (n1 n2 : Nat) (s : StoreState) :
    (s.products ≠ [] →
      fetchProducts false o1 n1 s = { state := s, requests := 0 }) ∧
    ((fetchProducts false o1 n1 s).state.products ≠ [] →
      (fetchProducts false o1 n1 s).requests +
        (fetchProducts false o2 n2 (fetchProducts false o1 n1 s).state).requests ≤ 1) := by
  have hskip : ∀ (o : FetchOutcome) (n : Nat) (t : StoreState), t.products ≠ [] →
      fetchProducts false o n t = { state := t, requests := 0 } := by
    intro o n t ht
    have hlen : 0 < t.products.length := List.length_pos.mpr ht
    simp [fetchProducts, hlen]
  refine ⟨hskip o1 n1 s, ?_⟩
  intro h
  rw [hskip o2 n2 _ h]
  have hone : (fetchProducts false o1 n1 s).requests ≤ 1 := by
    by_cases hs : s.products = []
    · cases o1 <;> simp [fetchProducts, hs]
    · rw [hskip o1 n1 s hs]
      exact Nat.zero_le 1
  simpa using hone

/-- C12, at concrete inputs: on the scenario collection a `fetchProducts()`
issues no request; from the empty initial state, a first call that loads the
scenario collection and a second call issue one request in total. -/
theorem fetchProducts_fetch_once_witness :
    (scenarioState.products ≠ [] ∧
      fetchProducts false FetchOutcome.notOk 5 scenarioState
        = { state := scenarioState, requests := 0 }) ∧
    ((fetchProducts false (FetchOutcome.success [phone, desk]) 5 initialState).state.products
        ≠ [] ∧
      (fetchProducts false (FetchOutcome.success [phone, desk]) 5 initialState).requests +
        (fetchProducts false (FetchOutcome.success [lamp]) 6
          (fetchProducts false (FetchOutcome.success [phone, desk]) 5
            initialState).state).requests ≤ 1) :=
  ⟨⟨by simp [scenarioState],
      (fetchProducts_fetch_once FetchOutcome.notOk FetchOutcome.notOk 5 5 scenarioState).1
        (by simp [scenarioState])⟩,
    ⟨by simp [fetchProducts, initialState],
      (fetchProducts_fetch_once (FetchOutcome.success [phone, desk])
        (FetchOutcome.success [lamp]) 5 6 initialState).2
        (by simp [fetchProducts, initialState])⟩⟩

theorem messageOr_ne_empty (m : Option String) (fallback : String) (h : fallback ≠ "") :
    messageOr m fallback ≠ "" := by
  unfold messageOr
  cases m with
  | none => exact h
  | some m =>
    by_cases hm : m = ""
    · simp [hm, h]
    · simp [hm]

/-- C13: when `fetchProducts` issues its request (the collection is empty or
`forceRefresh` is true) and the request fails, by a response that is not ok or
by a thrown error, one request is issued and the resulting state has a
non-empty error message and `loading = false`, while `products` and
`lastFetch` are what they were before the call. -/
theorem fetchProducts_failure (forceRefresh : Bool) (outcome : FetchOutcome) (now : Nat)
    (s : StoreState) (hreq : s.products = [] ∨ forceRefresh = true)
    (hfail : outcome.failed = true) :
    (fetchProducts forceRefresh outcome now s).requests = 1 ∧
    (∃ msg, (fetchProducts forceRefresh outcome now s).state.error = some msg ∧ msg ≠ "") ∧
    (fetchProducts forceRefresh outcome now s).state.loading = false ∧
    (fetchProducts forceRefresh outcome now s).state.products = s.products ∧
    (fetchProducts forceRefresh outcome now s).state.lastFetch = s.lastFetch := by
  have hguard : (decide (s.products.length > 0) && !forceRefresh) = false := by
    rcases hreq with h | h
    · simp [h]
    · simp [h]
  unfold fetchProducts
  simp only [hguard]
  cases outcome with
  | success data => simp [FetchOutcome.failed] at hfail
  | notOk =>
    exact ⟨rfl, ⟨_, rfl, messageOr_ne_empty _ _ (by decide)⟩, rfl, rfl, rfl⟩
  | thrown message =>
    exact ⟨rfl, ⟨_, rfl, messageOr_ne_empty _ _ (by decide)⟩, rfl, rfl, rfl⟩

/-- C13, at a concrete input: a forced refresh of the scenario collection that
gets a response that is not ok. -/
theorem fetchProducts_failure_witness :
    (scenarioState.products = [] ∨ true = true) ∧ FetchOutcome.notOk.failed = true ∧
    (fetchProducts true FetchOutcome.notOk 7 scenarioState).requests = 1 ∧
    (∃ msg, (fetchProducts true FetchOutcome.notOk 7 scenarioState).state.error = some msg ∧
      msg ≠ "") ∧
    (fetchProducts true FetchOutcome.notOk 7 scenarioState).state.loading = false ∧
    (fetchProducts true FetchOutcome.notOk 7 scenarioState).state.products
      = scenarioState.products ∧
    (fetchProducts true FetchOutcome.notOk 7 scenarioState).state.lastFetch
      = scenarioState.lastFetch :=
  ⟨Or.inr rfl, rfl,
    fetchProducts_failure true FetchOutcome.notOk 7 scenarioState (Or.inr rfl) rfl⟩

/-- C14: when `fetchProducts` is called with an empty collection or with
`forceRefresh = true` and the request succeeds with the list `data`, one
request is issued and the resulting state has `products = data`,
`loading = false`, `error = null` and `lastFetch` the time read on completion. -/
theorem fetchProducts_success (forceRefresh : Bool) (data : List JSObj) (now : Nat)
    (s : StoreState) (hreq : s.products = [] ∨ forceRefresh = true) :
    fetchProducts forceRefresh (FetchOutcome.success data) now s =
      { state := { products := data, loading := false, error := none, lastFetch := some now },
        requests := 1 } := by
  have hguard : (decide (s.products.length > 0) && !forceRefresh) = false := by
    rcases hreq with h | h
    · simp [h]
    · simp [h]
  unfold fetchProducts
  simp only [hguard]
  rfl

/-- C14, at a concrete input: a forced refresh of the scenario collection that
succeeds with the single record `lamp`. -/
theorem fetchProducts_success_witness :
    (scenarioState.products = [] ∨ true = true) ∧
    fetchProducts true (FetchOutcome.success [lamp]) 7 scenarioState =
      { state := { products := [lamp], loading := false, error := none, lastFetch := some 7 },
        requests := 1 } :=
  ⟨Or.inr rfl, fetchProducts_success true [lamp] 7 scenarioState (Or.inr rfl)⟩

/-- C15: for every prior state, a `resetToApi` whose request succeeds with the
list `data` ends with `products = data`, `loading = false`, `error = null` and
`lastFetch` the time read on completion, and returns `{ success: true }`;
whatever the state and the outcome, `resetToApi` issues its request. -/
theorem resetToApi_success (data : List JSObj) (now : Nat) (s : StoreState)
    (outcome : FetchOutcome) :
    (resetToApi (FetchOutcome.success data) now s).1.state =
      { products := data, loading := false, error := none, lastFetch := some now } ∧
    (resetToApi (FetchOutcome.success data) now s).2 = { success := true, error := none } ∧
    (resetToApi outcome now s).1.requests = 1 := by
  refine ⟨rfl, rfl, ?_⟩
  cases outcome <;> rfl

/-- C16 (as stated, refuted): a `resetToApi` on the scenario collection whose
request fails sets the error and returns a failure, and the collection still
holds its two records. -/
theorem resetToApi_failure_keeps_collection :
    (resetToApi FetchOutcome.notOk 7 scenarioState).1.state.error
      = some "Error al resetear productos" ∧
    (resetToApi FetchOutcome.notOk 7 scenarioState).2.success = false ∧
    (resetToApi FetchOutcome.notOk 7 scenarioState).1.state.products.length = 2 ∧
    (resetToApi FetchOutcome.notOk 7 scenarioState).1.state.products ≠ [] := by
  refine ⟨by decide, rfl, rfl, ?_⟩
  intro h
  exact absurd (congrArg List.length h) (by decide)

/-- C16 (amended): when the request of `resetToApi` fails, the resulting state
has a non-empty error message and `loading = false`, the returned value is a
failure, and `products` and `lastFetch` are what they were before the call:
the collection is not cleared. -/
theorem resetToApi_failure (outcome : FetchOutcome) (now : Nat) (s : StoreState)
    (hfail : outcome.failed = true) :
    (∃ msg, (resetToApi outcome now s).1.state.error = some msg ∧ msg ≠ "") ∧
    (resetToApi outcome now s).2.success = false ∧
    (resetToApi outcome now s).1.state.loading = false ∧
    (resetToApi outcome now s).1.state.products = s.products ∧
    (resetToApi outcome now s).1.state.lastFetch = s.lastFetch := by
  cases outcome with
  | success data => simp [FetchOutcome.failed] at hfail
  | notOk => exact ⟨⟨_, rfl, messageOr_ne_empty _ _ (by decide)⟩, rfl, rfl, rfl, rfl⟩
  | thrown message => exact ⟨⟨_, rfl, messageOr_ne_empty _ _ (by decide)⟩, rfl, rfl, rfl, rfl⟩

/-- C16 (amended), at a concrete input: a reset of the scenario collection
that fails with a thrown error without message. -/
theorem resetToApi_failure_witness :
    (FetchOutcome.thrown none).failed = true ∧
    (∃ msg, (resetToApi (FetchOutcome.thrown none) 7 scenarioState).1.state.error = some msg ∧
      msg ≠ "") ∧
    (resetToApi (FetchOutcome.thrown none) 7 scenarioState).2.success = false ∧
    (resetToApi (FetchOutcome.thrown none) 7 scenarioState).1.state.loading = false ∧
    (resetToApi (FetchOutcome.thrown none) 7 scenarioState).1.state.products
      = scenarioState.products ∧
    (resetToApi (FetchOutcome.thrown none) 7 scenarioState).1.state.lastFetch
      = scenarioState.lastFetch :=
  ⟨rfl, resetToApi_failure (FetchOutcome.thrown none) 7 scenarioState rfl⟩

theorem jsOr_zero_of_numberOrMissing (v : JSVal) (h : isNumberOrMissing v = true) :
    jsOr v (JSVal.ofInt 0) = JSVal.num (JSNum.fin (valueOrZero v)) := by
  cases v with
  | undefined => simp [jsOr, JSVal.truthy, JSVal.ofInt, valueOrZero]
  | null => simp [jsOr, JSVal.truthy, JSVal.ofInt, valueOrZero]
  | bool b => simp [isNumberOrMissing] at h
  | str s => simp [isNumberOrMissing] at h
  | num n =>
    cases n with
    | nan => simp [isNumberOrMissing] at h
    | posInf => simp [isNumberOrMissing] at h
    | negInf => simp [isNumberOrMissing] at h
    | fin q =>
      by_cases hq : q = 0
      · simp [jsOr, JSVal.truthy, JSNum.truthy, JSVal.ofInt, valueOrZero, hq]
      · simp [jsOr, JSVal.truthy, JSNum.truthy, valueOrZero, hq]

theorem jsAdd_num (rt : JSRuntime) (a b : JSNum) :
    jsAdd rt (JSVal.num a) (JSVal.num b) = JSVal.num ((a.add b).rounded rt) :=
  rfl

theorem jsMul_fin (rt : JSRuntime) (a b : ℚ) :
    jsMul rt (JSVal.num (JSNum.fin a)) (JSVal.num (JSNum.fin b))
      = JSVal.num (roundedProduct rt a b) :=
  rfl

theorem foldl_jsAdd_num (rt : JSRuntime) (g : JSObj → JSVal) (v : JSObj → JSNum) :
    ∀ (l : List JSObj) (a : JSNum), (∀ p ∈ l, g p = JSVal.num (v p)) →
      l.foldl (fun acc p => jsAdd rt acc (g p)) (JSVal.num a)
        = JSVal.num ((l.map v).foldl (fun acc x => (acc.add x).rounded rt) a) := by
  intro l
  induction l with
  | nil => intro a _; rfl
  | cons p l ih =>
    intro a h
    rw [List.foldl_cons, h p (List.mem_cons_self _ _), jsAdd_num,
      ih _ (fun x hx => h x (List.mem_cons_of_mem _ hx))]
    rfl

/-- When no partial sum is changed by the rounding, the sum computed by the
language is the exact sum. -/
theorem foldl_rounded_exact (rt : JSRuntime) :
    ∀ (xs : List ℚ) (a : ℚ),
      (∀ n, n ≤ xs.length →
        rt.roundNumber (a + (xs.take n).sum) = JSNum.fin (a + (xs.take n).sum)) →
      (xs.map JSNum.fin).foldl (fun acc x => (acc.add x).rounded rt) (JSNum.fin a)
        = JSNum.fin (a + xs.sum) := by
  intro xs
  induction xs with
  | nil => intro a _; simp
  | cons x xs ih =>
    intro a h
    have h1 := h 1 (by simp)
    simp only [List.take_succ_cons, List.take_zero, List.sum_cons, List.sum_nil,
      add_zero] at h1
    have hstep : ((JSNum.fin a).add (JSNum.fin x)).rounded rt = JSNum.fin (a + x) := by
      simpa [JSNum.add, JSNum.rounded] using h1
    rw [List.map_cons, List.foldl_cons, hstep, ih (a + x)]
    · simp [add_assoc]
    · intro n hn
      have := h (n + 1) (by simpa using hn)
      simpa [add_assoc] using this

theorem roundedSum_exact (rt : JSRuntime) (xs : List ℚ)
    (h : ∀ n, n ≤ xs.length → rt.roundNumber ((xs.take n).sum) = JSNum.fin ((xs.take n).sum)) :
    roundedSum rt (xs.map JSNum.fin) = JSNum.fin xs.sum := by
  have := foldl_rounded_exact rt xs 0 (by simpa using h)
  simpa [roundedSum] using this

/-- C17: for a collection whose prices and stocks are finite numbers or
missing, a missing one counted as `0`, `getStats` returns `total` the number
of products, `totalStock` the sum of the stocks, `totalValue` the sum of the
products price times stock, `avgPrice` the sum of the prices divided by
`total` (`0` for the empty collection) and `lowStock` the number of products
with stock below `10`; the sums, products and quotient are those of the
language, rounded at each step, and they are the exact ones whenever the
rounding changes none of the intermediate results; on the empty collection
every entry is `0`. -/
theorem getStats_spec (rt : JSRuntime) (s : StoreState)
    (h : ∀ p ∈ s.products, isNumberOrMissing (getProp p "price") = true ∧
      isNumberOrMissing (getProp p "stock") = true) :
    (getStats rt s).total = s.products.length ∧
    (getStats rt s).totalStock = JSVal.num (roundedSum rt
      (s.products.map (fun p => JSNum.fin (valueOrZero (getProp p "stock"))))) ∧
    (getStats rt s).totalValue = JSVal.num (roundedSum rt
      (s.products.map (fun p =>
        roundedProduct rt (valueOrZero (getProp p "price"))
          (valueOrZero (getProp p "stock"))))) ∧
    (getStats rt s).avgPrice = JSVal.num
      (if s.products.length = 0 then JSNum.fin 0
       else ((roundedSum rt
          (s.products.map (fun p => JSNum.fin (valueOrZero (getProp p "price"))))).div
            (JSNum.fin s.products.length)).rounded rt) ∧
    (getStats rt s).lowStock = (s.products.filter
      (fun p => decide (valueOrZero (getProp p "stock") < 10))).length ∧
    (s.products = [] → getStats rt s =
      { total := 0, totalStock := JSVal.ofInt 0, totalValue := JSVal.ofInt 0,
        avgPrice := JSVal.ofInt 0, lowStock := 0 }) ∧
    ((∀ n, n ≤ s.products.length →
        rt.roundNumber (((s.products.map
          (fun p => valueOrZero (getProp p "stock"))).take n).sum)
        = JSNum.fin (((s.products.map
          (fun p => valueOrZero (getProp p "stock"))).take n).sum)) →
      (getStats rt s).totalStock = JSVal.num (JSNum.fin
        ((s.products.map (fun p => valueOrZero (getProp p "stock"))).sum))) ∧
    ((∀ p ∈ s.products,
        rt.roundNumber (valueOrZero (getProp p "price") * valueOrZero (getProp p "stock"))
        = JSNum.fin (valueOrZero (getProp p "price") * valueOrZero (getProp p "stock"))) →
      (∀ n, n ≤ s.products.length →
        rt.roundNumber (((s.products.map (fun p =>
          valueOrZero (getProp p "price") * valueOrZero (getProp p "stock"))).take n).sum)
        = JSNum.fin (((s.products.map (fun p =>
          valueOrZero (getProp p "price") * valueOrZero (getProp p "stock"))).take n).sum)) →
      (getStats rt s).totalValue = JSVal.num (JSNum.fin
        ((s.products.map (fun p =>
          valueOrZero (getProp p "price") * valueOrZero (getProp p "stock"))).sum))) ∧
    ((∀ n, n ≤ s.products.length →
        rt.roundNumber (((s.products.map
          (fun p => valueOrZero (getProp p "price"))).take n).sum)
        = JSNum.fin (((s.products.map
          (fun p => valueOrZero (getProp p "price"))).take n).sum)) →
      rt.roundNumber ((s.products.map (fun p => valueOrZero (getProp p "price"))).sum
          / s.products.length)
        = JSNum.fin ((s.products.map (fun p => valueOrZero (getProp p "price"))).sum
          / s.products.length) →
      (getStats rt s).avgPrice = JSVal.num (JSNum.fin
        (if s.products.length = 0 then 0
         else (s.products.map (fun p => valueOrZero (getProp p "price"))).sum
           / s.products.length))) := by
  have hstock : ∀ p ∈ s.products, jsOr (getProp p "stock") (JSVal.ofInt 0)
      = JSVal.num (JSNum.fin (valueOrZero (getProp p "stock"))) :=
    fun p hp => jsOr_zero_of_numberOrMissing _ (h p hp).2
  have hprice : ∀ p ∈ s.products, jsOr (getProp p "price") (JSVal.ofInt 0)
      = JSVal.num (JSNum.fin (valueOrZero (getProp p "price"))) :=
    fun p hp => jsOr_zero_of_numberOrMissing _ (h p hp).1
  have hzero : JSVal.ofInt 0 = JSVal.num (JSNum.fin 0) := by simp [JSVal.ofInt]
  have hS : (getStats rt s).totalStock = JSVal.num (roundedSum rt
      (s.products.map (fun p => JSNum.fin (valueOrZero (getProp p "stock"))))) := by
    simp only [getStats, hzero]
    rw [foldl_jsAdd_num rt _ (fun p => JSNum.fin (valueOrZero (getProp p "stock"))) _ _
      (fun p hp => by rw [← hzero]; exact hstock p hp)]
    rfl
  have hV : (getStats rt s).totalValue = JSVal.num (roundedSum rt
      (s.products.map (fun p =>
        roundedProduct rt (valueOrZero (getProp p "price"))
          (valueOrZero (getProp p "stock"))))) := by
    simp only [getStats, hzero]
    rw [foldl_jsAdd_num rt _ (fun p =>
        roundedProduct rt (valueOrZero (getProp p "price"))
          (valueOrZero (getProp p "stock"))) _ _
      (fun p hp => by rw [← hzero, hstock p hp, hprice p hp, jsMul_fin])]
    rfl
  have hA : (getStats rt s).avgPrice = JSVal.num
      (if s.products.length = 0 then JSNum.fin 0
       else ((roundedSum rt
          (s.products.map (fun p => JSNum.fin (valueOrZero (getProp p "price"))))).div
            (JSNum.fin s.products.length)).rounded rt) := by
    by_cases hlen : s.products.length = 0
    · simp [getStats, hlen, JSVal.ofInt]
    · have hpos : 0 < s.products.length := Nat.pos_of_ne_zero hlen
      simp only [getStats, hzero, hlen, if_false, gt_iff_lt, hpos, if_true]
      rw [foldl_jsAdd_num rt _ (fun p => JSNum.fin (valueOrZero (getProp p "price"))) _ _
        (fun p hp => by rw [← hzero]; exact hprice p hp)]
      simp [jsDiv, toNumber, JSVal.ofInt, roundedSum]
  refine ⟨rfl, hS, hV, hA, ?_, ?_, ?_, ?_, ?_⟩
  · simp only [getStats]
    congr 1
    apply List.filter_congr
    intro p hp
    rw [hstock p hp]
    simp [jsLt, toNumber, JSVal.ofInt, JSNum.lt]
  · intro hnil
    simp [getStats, hnil]
  · intro hex
    rw [hS]
    have := roundedSum_exact rt
      (s.products.map (fun p => valueOrZero (getProp p "stock"))) (by simpa using hex)
    simpa [List.map_map, Function.comp_def] using congrArg JSVal.num this
  · intro hprod hex
    rw [hV]
    have hmap : s.products.map (fun p =>
        roundedProduct rt (valueOrZero (getProp p "price"))
          (valueOrZero (getProp p "stock")))
        = (s.products.map (fun p =>
          valueOrZero (getProp p "price") * valueOrZero (getProp p "stock"))).map
            JSNum.fin := by
      rw [List.map_map]
      apply List.map_congr_left
      intro p hp
      simpa [roundedProduct, JSNum.mul, JSNum.rounded] using hprod p hp
    rw [hmap]
    exact congrArg JSVal.num (roundedSum_exact rt _ (by simpa using hex))
  · intro hex hq
    rw [hA]
    by_cases hlen : s.products.length = 0
    · simp [hlen]
    · have hsum := roundedSum_exact rt
        (s.products.map (fun p => valueOrZero (getProp p "price"))) (by simpa using hex)
      rw [List.map_map] at hsum
      have hne : (s.products.length : ℚ) ≠ 0 := by exact_mod_cast hlen
      have hsum' : roundedSum rt
          (s.products.map (fun p => JSNum.fin (valueOrZero (getProp p "price"))))
          = JSNum.fin ((s.products.map (fun p => valueOrZero (getProp p "price"))).sum) := by
        simpa [Function.comp_def] using hsum
      simp only [hlen, if_false, hsum']
      congr 1
      simpa [JSNum.div, hne, JSNum.rounded] using hq

/-- C17, at a concrete input: the scenario collection followed by a record
without price and stock has three products, total stock `25`, total value
`1500`, average price `50` and two products with low stock. -/
theorem getStats_spec_witness :
    (∀ p ∈ threeProductsState.products, isNumberOrMissing (getProp p "price") = true ∧
      isNumberOrMissing (getProp p "stock") = true) ∧
    (getStats sampleRuntime threeProductsState).total = 3 ∧
    (getStats sampleRuntime threeProductsState).totalStock = JSVal.num (JSNum.fin
      ((threeProductsState.products.map (fun p => valueOrZero (getProp p "stock"))).sum)) ∧
    (getStats sampleRuntime threeProductsState).totalStock = JSVal.ofInt 25 ∧
    (getStats sampleRuntime threeProductsState).totalValue = JSVal.ofInt 1500 ∧
    (getStats sampleRuntime threeProductsState).avgPrice = JSVal.ofInt 50 ∧
    (getStats sampleRuntime threeProductsState).lowStock = 2 :=
  ⟨by decide!,
    (getStats_spec sampleRuntime threeProductsState (by decide!)).1,
    (getStats_spec sampleRuntime threeProductsState (by decide!)).2.2.2.2.2.2.1
      (fun _ _ => rfl),
    by decide!, by decide!, by decide!, by decide!⟩

/-! ### Sets and the default sort -/

theorem setOf_foldl_spec (xs : List JSVal) : ∀ acc : List JSVal, acc.Nodup →
    (xs.foldl (fun acc x => if x ∈ acc then acc else acc ++ [x]) acc).Nodup ∧
    ∀ v, v ∈ xs.foldl (fun acc x => if x ∈ acc then acc else acc ++ [x]) acc ↔
      v ∈ acc ∨ v ∈ xs := by
  induction xs with
  | nil => intro acc h; simp [h]
  | cons x xs ih =>
    intro acc h
    rw [List.foldl_cons]
    by_cases hx : x ∈ acc
    · simp only [hx, if_true]
      refine ⟨(ih acc h).1, fun v => ?_⟩
      rw [(ih acc h).2 v]
      constructor
      · rintro (hv | hv)
        · exact Or.inl hv
        · exact Or.inr (List.mem_cons_of_mem _ hv)
      · rintro (hv | hv)
        · exact Or.inl hv
        · rcases List.mem_cons.mp hv with rfl | hv
          · exact Or.inl hx
          · exact Or.inr hv
    · simp only [hx, if_false]
      have hnd : (acc ++ [x]).Nodup := by
        rw [List.nodup_append]
        refine ⟨h, List.nodup_singleton x, ?_⟩
        intro a ha hb
        rw [List.mem_singleton] at hb
        exact hx (hb ▸ ha)
      refine ⟨(ih _ hnd).1, fun v => ?_⟩
      rw [(ih _ hnd).2 v]
      simp only [List.mem_append, List.mem_singleton, List.mem_cons]
      tauto

theorem nodup_setOf (xs : List JSVal) : (setOf xs).Nodup :=
  (setOf_foldl_spec xs [] List.nodup_nil).1

theorem mem_setOf (xs : List JSVal) (v : JSVal) : v ∈ setOf xs ↔ v ∈ xs := by
  have h := (setOf_foldl_spec xs [] List.nodup_nil).2 v
  simpa [setOf] using h

theorem unitsLe_total : ∀ xs ys : List Nat, unitsLe xs ys = true ∨ unitsLe ys xs = true := by
  intro xs
  induction xs with
  | nil => intro ys; exact Or.inl (by simp [unitsLe])
  | cons x xs ih =>
    intro ys
    cases ys with
    | nil => exact Or.inr (by simp [unitsLe])
    | cons y ys =>
      rcases Nat.lt_trichotomy x y with h | h | h
      · exact Or.inl (by simp [unitsLe, h])
      · subst h
        simpa [unitsLe] using ih ys
      · exact Or.inr (by simp [unitsLe, h])

theorem unitsLe_trans : ∀ xs ys zs : List Nat, unitsLe xs ys = true → unitsLe ys zs = true →
    unitsLe xs zs = true := by
  intro xs
  induction xs with
  | nil => intro ys zs _ _; simp [unitsLe]
  | cons x xs ih =>
    intro ys zs hxy hyz
    cases ys with
    | nil => simp [unitsLe] at hxy
    | cons y ys =>
      cases zs with
      | nil => simp [unitsLe] at hyz
      | cons z zs =>
        simp only [unitsLe] at hxy hyz ⊢
        by_cases h1 : x < y
        · by_cases h2 : y < z
          · simp [Nat.lt_trans h1 h2]
          · by_cases h3 : z < y
            · simp [h2, h3] at hyz
            · have : y = z := by omega
              subst this
              simp [h1]
        · by_cases h1' : y < x
          · simp [h1, h1'] at hxy
          · have hxy' : x = y := by omega
            subst hxy'
            simp only [h1, if_false] at hxy
            by_cases h2 : x < z
            · simp [h2]
            · by_cases h3 : z < x
              · simp [h2, h3] at hyz
              · simp only [h2, h3, if_false] at hyz ⊢
                exact ih ys zs hxy hyz

theorem defaultSortLe_total (rt : JSRuntime) (a b : JSVal) :
    defaultSortLe rt a b = true ∨ defaultSortLe rt b a = true := by
  unfold defaultSortLe strLe
  by_cases hb : b = JSVal.undefined
  · simp [hb]
  · by_cases ha : a = JSVal.undefined
    · simp [ha]
    · simpa [ha, hb] using unitsLe_total _ _

theorem defaultSortLe_trans (rt : JSRuntime) (a b c : JSVal)
    (hab : defaultSortLe rt a b = true) (hbc : defaultSortLe rt b c = true) :
    defaultSortLe rt a c = true := by
  unfold defaultSortLe strLe at *
  by_cases hc : c = JSVal.undefined
  · simp [hc]
  · by_cases hb : b = JSVal.undefined
    · simp [hb, hc] at hbc
    · by_cases ha : a = JSVal.undefined
      · simp [ha, hb] at hab
      · simp only [ha, hb, hc, if_false] at hab hbc ⊢
        exact unitsLe_trans _ _ _ hab hbc

theorem sorted_defaultSort (rt : JSRuntime) (xs : List JSVal) :
    (defaultSort rt xs).Pairwise (fun a b => defaultSortLe rt a b = true) := by
  haveI : IsTotal JSVal (fun a b => defaultSortLe rt a b = true) :=
    ⟨defaultSortLe_total rt⟩
  haveI : IsTrans JSVal (fun a b => defaultSortLe rt a b = true) :=
    ⟨defaultSortLe_trans rt⟩
  exact List.sorted_insertionSort (fun a b => defaultSortLe rt a b = true) xs

theorem perm_defaultSort (rt : JSRuntime) (xs : List JSVal) :
    (defaultSort rt xs).Perm xs :=
  List.perm_insertionSort _ xs

/-- C18: for every collection, the list returned by `getCategories` is sorted
by the code-unit order of strings, has no duplicates, holds no falsy value (in
particular not the empty string), and its elements are exactly the truthy
`category` values of the records of the collection; the scenario collection
gives `["furniture", "tech"]`. -/
theorem getCategories_spec (rt : JSRuntime) (s : StoreState) :
    (getCategories rt s).Pairwise (fun a b => strLe (toStr rt a) (toStr rt b) = true) ∧
    (getCategories rt s).Nodup ∧
    JSVal.str "" ∉ getCategories rt s ∧
    (∀ v, v ∈ getCategories rt s ↔
      v.truthy = true ∧ ∃ p ∈ s.products, getProp p "category" = v) ∧
    getCategories rt scenarioState = [JSVal.str "furniture", JSVal.str "tech"] := by
  have hmem : ∀ v, v ∈ getCategories rt s ↔
      v.truthy = true ∧ ∃ p ∈ s.products, getProp p "category" = v := by
    intro v
    unfold getCategories
    rw [(perm_defaultSort rt _).mem_iff, mem_setOf, List.mem_filter, List.mem_map]
    tauto
  have hdef : ∀ v ∈ getCategories rt s, v ≠ JSVal.undefined := by
    intro v hv h
    have := ((hmem v).mp hv).1
    simp [h, JSVal.truthy] at this
  refine ⟨?_, ?_, ?_, hmem, ?_⟩
  · refine List.Pairwise.imp_of_mem ?_ (sorted_defaultSort rt _)
    intro a b ha hb hab
    have ha' := hdef a ha
    have hb' := hdef b hb
    simpa [defaultSortLe, ha', hb'] using hab
  · exact (perm_defaultSort rt _).nodup_iff.mpr (nodup_setOf _)
  · intro h
    have := ((hmem _).mp h).1
    simp [JSVal.truthy] at this
  · simp [getCategories, scenarioState, phone, desk, objOf, getProp, List.lookup, JSVal.truthy,
      setOf, defaultSort, defaultSortLe, toStr, strLe, utf16Units, charUnits, unitsLe]

/-! ### Search and category filter -/

theorem isInfixOf_iff (needle : List Char) : ∀ hay : List Char,
    isInfixOf needle hay = true ↔ needle <:+: hay := by
  intro hay
  induction hay with
  | nil =>
    cases needle with
    | nil => simp [isInfixOf]
    | cons c cs => simp [isInfixOf, List.isPrefixOf]
  | cons c cs ih =>
    rw [isInfixOf, Bool.or_eq_true, ih, List.infix_cons_iff, List.isPrefixOf_iff_prefix]

theorem filterThrow_eq_filter (f : JSObj → Option Bool) (g : JSObj → Bool) :
    ∀ l : List JSObj, (∀ x ∈ l, f x = some (g x)) → filterThrow f l = some (l.filter g) := by
  intro l
  induction l with
  | nil => intro _; rfl
  | cons x xs ih =>
    intro h
    have hx := h x (List.mem_cons_self _ _)
    have hxs := ih (fun y hy => h y (List.mem_cons_of_mem _ hy))
    simp only [filterThrow, hx, hxs, List.filter_cons]

theorem fieldIncludes_of_text (rt : JSRuntime) (term : String) (v : JSVal)
    (h : isTextOrMissing v = true) :
    fieldIncludes rt term v = some (containsIgnoringCase rt term v) := by
  cases v with
  | undefined => rfl
  | null => rfl
  | bool b => simp [isTextOrMissing] at h
  | num n => simp [isTextOrMissing] at h
  | str t =>
    simp only [fieldIncludes, optToLowerCase, callToLowerCase, containsIgnoringCase, includes]
    congr 1
    rw [Bool.eq_iff_iff, isInfixOf_iff]
    simp

theorem orElseTest_some (a b : Bool) (y : Option Bool) (hy : y = some b) :
    orElseTest (some a) y = some (a || b) := by
  subst hy
  cases a <;> rfl

/-- The products whose title, brand, category or description contains `term`
when lower-cased. -/
theorem searchMatches_of_text (rt : JSRuntime) (term : String) (p : JSObj)
    (h : isTextOrMissing (getProp p "title") = true ∧
      isTextOrMissing (getProp p "brand") = true ∧
      isTextOrMissing (getProp p "category") = true ∧
      isTextOrMissing (getProp p "description") = true) :
    searchMatches rt term p = some
      (containsIgnoringCase rt term (getProp p "title") ||
        (containsIgnoringCase rt term (getProp p "brand") ||
          (containsIgnoringCase rt term (getProp p "category") ||
            containsIgnoringCase rt term (getProp p "description")))) := by
  unfold searchMatches
  rw [fieldIncludes_of_text rt term _ h.1, fieldIncludes_of_text rt term _ h.2.1,
    fieldIncludes_of_text rt term _ h.2.2.1, fieldIncludes_of_text rt term _ h.2.2.2]
  exact orElseTest_some _ _ _ (orElseTest_some _ _ _ (orElseTest_some _ _ _ rfl))

/-- C19 (as stated, refuted): on the scenario collection `searchProducts("pho ")`
returns the phone, although no text field of the phone contains `"pho "`, with
its trailing space, when both are lower-cased. -/
theorem searchProducts_trims_query :
    (searchProducts sampleRuntime "pho " scenarioState).map
      (fun l => l.map (fun p => getProp p "id")) = some [JSVal.ofInt 1] ∧
    includes (sampleRuntime.toLowerCase "Phone") (sampleRuntime.toLowerCase "pho ") = false ∧
    includes (sampleRuntime.toLowerCase "tech") (sampleRuntime.toLowerCase "pho ") = false ∧
    getProp phone "title" = JSVal.str "Phone" ∧
    getProp phone "category" = JSVal.str "tech" ∧
    getProp phone "brand" = JSVal.undefined ∧
    getProp phone "description" = JSVal.undefined := by
  decide

/-- C19 (amended): for a collection whose titles, brands, categories and
descriptions are strings or missing, `searchProducts(q)` returns without
throwing; with `t` the lower-cased query trimmed of surrounding white space,
it returns the full collection when `t` is empty, and otherwise, in collection
order, exactly the products one of whose title, brand, category or description
contains `t` when lower-cased. -/
theorem searchProducts_spec (rt : JSRuntime) (q : String) (s : StoreState)
    (h : ∀ p ∈ s.products, isTextOrMissing (getProp p "title") = true ∧
      isTextOrMissing (getProp p "brand") = true ∧
      isTextOrMissing (getProp p "category") = true ∧
      isTextOrMissing (getProp p "description") = true) :
    searchProducts rt q s = some
      (if trim (rt.toLowerCase q) = "" then s.products
       else s.products.filter (fun p =>
        containsIgnoringCase rt (trim (rt.toLowerCase q)) (getProp p "title") ||
          (containsIgnoringCase rt (trim (rt.toLowerCase q)) (getProp p "brand") ||
            (containsIgnoringCase rt (trim (rt.toLowerCase q)) (getProp p "category") ||
              containsIgnoringCase rt (trim (rt.toLowerCase q))
                (getProp p "description"))))) := by
  unfold searchProducts
  by_cases ht : trim (rt.toLowerCase q) = ""
  · simp [ht]
  · simp only [ht, if_false]
    exact filterThrow_eq_filter _ _ _
      (fun p hp => searchMatches_of_text rt _ p (h p hp))

/-- C19 (amended), at concrete inputs: on the scenario collection
`searchProducts("pho")` returns exactly the product with id `1`, and the empty
query returns the full collection. -/
theorem searchProducts_spec_witness :
    (∀ p ∈ scenarioState.products, isTextOrMissing (getProp p "title") = true ∧
      isTextOrMissing (getProp p "brand") = true ∧
      isTextOrMissing (getProp p "category") = true ∧
      isTextOrMissing (getProp p "description") = true) ∧
    (searchProducts sampleRuntime "pho" scenarioState).map
      (fun l => l.map (fun p => getProp p "id")) = some [JSVal.ofInt 1] ∧
    searchProducts sampleRuntime "" scenarioState = some scenarioState.products :=
  ⟨by decide, by decide,
    (searchProducts_spec sampleRuntime "" scenarioState (by decide)).trans (by simp [trim, sampleRuntime])⟩

theorem categoryMatches_of_text (rt : JSRuntime) (c : String) (p : JSObj)
    (h : isTextOrMissing (getProp p "category") = true) :
    categoryMatches rt (JSVal.str c) p
      = some (equalsIgnoringCase rt c (getProp p "category")) := by
  unfold categoryMatches
  cases hv : getProp p "category" with
  | undefined => simp [optToLowerCase, callToLowerCase, strictEq, equalsIgnoringCase]
  | null => simp [optToLowerCase, callToLowerCase, strictEq, equalsIgnoringCase]
  | bool b => simp [hv, isTextOrMissing] at h
  | num n => simp [hv, isTextOrMissing] at h
  | str t => simp [optToLowerCase, callToLowerCase, strictEq, equalsIgnoringCase]

/-- C20: for a collection whose categories are strings or missing and a
string `c`, `filterByCategory(c)` returns without throwing: the full
collection when `c` is empty, and otherwise, in collection order, exactly the
products whose category is a string equal to `c` when both are lower-cased;
for `undefined` and `null` it returns the full collection as well. -/
theorem filterByCategory_spec (rt : JSRuntime) (c : String) (s : StoreState)
    (h : ∀ p ∈ s.products, isTextOrMissing (getProp p "category") = true) :
    filterByCategory rt (JSVal.str c) s = some
      (if c = "" then s.products
       else s.products.filter (fun p => equalsIgnoringCase rt c (getProp p "category"))) ∧
    filterByCategory rt JSVal.undefined s = some s.products ∧
    filterByCategory rt JSVal.null s = some s.products := by
  refine ⟨?_, rfl, rfl⟩
  unfold filterByCategory
  by_cases hc : c = ""
  · simp [hc, JSVal.truthy]
  · simp only [JSVal.truthy, hc, ne_eq, not_false_eq_true, decide_True, Bool.not_true,
      Bool.false_eq_true, if_false]
    exact filterThrow_eq_filter _ _ _ (fun p hp => categoryMatches_of_text rt c p (h p hp))

/-- C20, at concrete inputs: on the scenario collection `filterByCategory("TECH")`
returns exactly the product with id `1`. -/
theorem filterByCategory_spec_witness :
    (∀ p ∈ scenarioState.products, isTextOrMissing (getProp p "category") = true) ∧
    (filterByCategory sampleRuntime (JSVal.str "TECH") scenarioState).map
      (fun l => l.map (fun p => getProp p "id")) = some [JSVal.ofInt 1] ∧
    filterByCategory sampleRuntime (JSVal.str "") scenarioState = some scenarioState.products :=
  ⟨by decide, by decide,
    (filterByCategory_spec sampleRuntime "" scenarioState (by decide)).1⟩

/-! ### Validated forms, and relations between the actions -/

theorem JSNum.lt_zero_eq_isNegative (n : JSNum) : n.lt (JSNum.fin 0) = n.isNegative := by
  cases n <;> simp [JSNum.lt, JSNum.isNegative]

theorem validateForm_price_stock (isValidUrl : String → Bool) (fd : FormData)
    (h : validateForm isValidUrl fd = true) :
    (parseFloat (JSVal.str fd.price)).isNegative = false ∧
    (parseInt (JSVal.str fd.stock)).isNegative = false := by
  have hp : validateField isValidUrl "price" fd.price = true := by
    by_contra hc
    simp [validateForm, FormData.field, hc] at h
  have hs : validateField isValidUrl "stock" fd.stock = true := by
    by_contra hc
    simp [validateForm, FormData.field, hc] at h
  constructor
  · rw [← JSNum.lt_zero_eq_isNegative]
    cases hlt : (parseFloat (JSVal.str fd.price)).lt (JSNum.fin 0) with
    | false => rfl
    | true =>
      exfalso
      by_cases he : fd.price = ""
      · simp [validateField, fieldError, he] at hp
      · simp [validateField, fieldError, he, hlt] at hp
  · rw [← JSNum.lt_zero_eq_isNegative]
    cases hlt : (parseInt (JSVal.str fd.stock)).lt (JSNum.fin 0) with
    | false => rfl
    | true =>
      exfalso
      by_cases he : fd.stock = ""
      · simp [validateField, fieldError, he, strictEq, JSVal.ofInt] at hp hs
      · simp [validateField, fieldError, he, hlt] at hs

theorem isNonNegNum_jsOr_of_not_negative (n : JSNum) (b : JSVal)
    (hb : b.isNonNegNum = true) (hn : n.isNegative = false) :
    (jsOr (JSVal.num n) b).isNonNegNum = true := by
  rw [jsOr_num_isNonNegNum n b hb, hn]
  rfl

/-- C27: for every form input accepted by `validateForm`, `handleSubmit` calls
`onSubmit` with the form data, the record created by `addProduct(formData)`
has a non-negative price and a non-negative stock, and
`updateProduct(id, formData)` leaves a non-negative price and a non-negative
stock on every matching record whose previous price and stock were
non-negative. -/
theorem validated_form_keeps_price_stock_nonneg (isValidUrl : String → Bool)
    (fd : FormData) (h : validateForm isValidUrl fd = true)
    (env : AddEnv) (stamp : Nat → String) (id : JSVal) (s : StoreState) :
    handleSubmit isValidUrl (fun f => addProduct env f s) fd
      = some (addProduct env (formFields fd) s) ∧
    (getProp (addProduct env (formFields fd) s).1 "price").isNonNegNum = true ∧
    (getProp (addProduct env (formFields fd) s).1 "stock").isNonNegNum = true ∧
    (∀ (i : Nat) (p : JSObj), s.products[i]? = some p → matchesId id p = true →
      (getProp p "price").isNonNegNum = true → (getProp p "stock").isNonNegNum = true →
      ∃ r, (updateProduct stamp id (formFields fd) s).products[i]? = some r ∧
        (getProp r "price").isNonNegNum = true ∧ (getProp r "stock").isNonNegNum = true) := by
  have hv := validateForm_price_stock isValidUrl fd h
  have hprice : getProp (formFields fd) "price" = JSVal.str fd.price := by
    simp [getProp, formFields]
  have hstock : getProp (formFields fd) "stock" = JSVal.str fd.stock := by
    simp [getProp, formFields]
  refine ⟨by simp [handleSubmit, h], ?_, ?_, ?_⟩
  · simp only [addProduct, getProp_newProduct_price, hprice]
    exact isNonNegNum_jsOr_of_not_negative _ _ isNonNegNum_ofInt_zero hv.1
  · simp only [addProduct, getProp_newProduct_stock, hstock]
    exact isNonNegNum_jsOr_of_not_negative _ _ isNonNegNum_ofInt_zero hv.2
  · intro i p hp hm hpp hps
    refine ⟨mergeProduct (stamp i) (formFields fd) p, ?_, ?_, ?_⟩
    · rw [updateProduct_getElem?, hp]
      simp [hm]
    · rw [getProp_mergeProduct_price, hprice]
      exact isNonNegNum_jsOr_of_not_negative _ _ hpp hv.1
    · rw [getProp_mergeProduct_stock, hstock]
      exact isNonNegNum_jsOr_of_not_negative _ _ hps hv.2

/-- C27, at a concrete input: the valid sample form, created in and applied to
the scenario collection; a form with stock `-3` is not accepted. -/
theorem validated_form_keeps_price_stock_nonneg_witness :
    validateForm sampleIsValidUrl sampleForm = true ∧
    validateForm sampleIsValidUrl negativeStockForm = false ∧
    (getProp (addProduct sampleEnvA (formFields sampleForm) scenarioState).1 "price").isNonNegNum
      = true ∧
    (getProp (addProduct sampleEnvA (formFields sampleForm) scenarioState).1 "stock").isNonNegNum
      = true ∧
    (∃ r, (updateProduct sampleStamp (JSVal.str "1") (formFields sampleForm)
        scenarioState).products[0]? = some r ∧
      (getProp r "price").isNonNegNum = true ∧ (getProp r "stock").isNonNegNum = true) :=
  ⟨by decide!, by decide!,
    (validated_form_keeps_price_stock_nonneg sampleIsValidUrl sampleForm (by decide!)
      sampleEnvA sampleStamp (JSVal.str "1") scenarioState).2.1,
    (validated_form_keeps_price_stock_nonneg sampleIsValidUrl sampleForm (by decide!)
      sampleEnvA sampleStamp (JSVal.str "1") scenarioState).2.2.1,
    (validated_form_keeps_price_stock_nonneg sampleIsValidUrl sampleForm (by decide!)
      sampleEnvA sampleStamp (JSVal.str "1") scenarioState).2.2.2 0 phone rfl (by decide)
      (by decide!) (by decide!)⟩

/-- C28: for every collection and every id, after `deleteProduct(id)` the
lookup `getProductById(id)` finds no product. -/
theorem getProductById_after_deleteProduct (id : JSVal) (s : StoreState) :
    getProductById id (deleteProduct id s) = none := by
  unfold getProductById
  apply List.find?_eq_none.mpr
  intro p hp
  simp only [deleteProduct, List.mem_filter, Bool.and_eq_true, Bool.not_eq_true'] at hp
  simp [matchesId, hp.2.1, hp.2.2]

theorem strictEq_generateId_self (now : Nat) (r : String) :
    strictEq (generateId now r) (generateId now r) = true :=
  strictEq_self (by simp [generateId])

/-- C29 (as stated, refuted): the collection holds one record, with the
numeric identifier `1700000000000`; `addProduct` returns a record with the new
identifier `"1700000000000k3j9x2mq1"`, and `deleteProduct` of that identifier
removes the older record as well, so the collection is not back to what it
was. -/
theorem add_then_delete_removes_numeric_id :
    productIds clockState = [JSVal.ofInt 1700000000000] ∧
    getProp (addProduct sampleEnvC sampleFields clockState).1 "id"
      = JSVal.str "1700000000000k3j9x2mq1" ∧
    getProp (addProduct sampleEnvC sampleFields clockState).1 "id" ∉ productIds clockState ∧
    (deleteProduct (getProp (addProduct sampleEnvC sampleFields clockState).1 "id")
      (addProduct sampleEnvC sampleFields clockState).2).products.length = 0 ∧
    clockState.products.length = 1 := by
  decide!

/-- C29 (amended): let `r = addProduct(f)`; `getProductById(r.id)` returns `r`,
and when no record of the previous collection has an identifier equal to
`r.id` or to the number `parseInt(r.id)`, `deleteProduct(r.id)` gives back the
previous state: the same records in the same order. -/
theorem add_then_delete_round_trip (env : AddEnv) (f : JSObj) (s : StoreState) :
    getProductById (getProp (addProduct env f s).1 "id") (addProduct env f s).2
      = some (addProduct env f s).1 ∧
    (getProp (addProduct env f s).1 "id" ∉ productIds s →
      JSVal.num (parseInt (getProp (addProduct env f s).1 "id")) ∉ productIds s →
      deleteProduct (getProp (addProduct env f s).1 "id") (addProduct env f s).2 = s) := by
  have hid : getProp (addProduct env f s).1 "id" = generateId env.now env.random36 := by
    simp [addProduct, getProp_newProduct_id]
  rw [hid]
  constructor
  · simp [getProductById, addProduct, matchesId, getProp_newProduct_id,
      strictEq_generateId_self]
  · intro h1 h2
    have hkeep : s.products.filter (fun p =>
        !(strictEq (getProp p "id") (JSVal.num (parseInt (generateId env.now env.random36)))) &&
          !(strictEq (getProp p "id") (generateId env.now env.random36))) = s.products := by
      apply List.filter_eq_self.mpr
      intro p hp
      have hmem : getProp p "id" ∈ productIds s := List.mem_map.mpr ⟨p, hp, rfl⟩
      have hne1 : getProp p "id" ≠ generateId env.now env.random36 :=
        fun he => h1 (he ▸ hmem)
      have hne2 : getProp p "id" ≠ JSVal.num (parseInt (generateId env.now env.random36)) :=
        fun he => h2 (he ▸ hmem)
      simp [strictEq_false_of_ne hne1, strictEq_false_of_ne hne2]
    cases s with
    | mk products loading error lastFetch =>
      simp only [deleteProduct, addProduct, List.filter_cons, getProp_newProduct_id,
        strictEq_generateId_self] at hkeep ⊢
      simp [hkeep]

/-- C29 (amended), at a concrete input: a product added to the scenario
collection and deleted again. -/
theorem add_then_delete_round_trip_witness :
    getProp (addProduct sampleEnvA sampleFields scenarioState).1 "id"
      ∉ productIds scenarioState ∧
    JSVal.num (parseInt (getProp (addProduct sampleEnvA sampleFields scenarioState).1 "id"))
      ∉ productIds scenarioState ∧
    deleteProduct (getProp (addProduct sampleEnvA sampleFields scenarioState).1 "id")
      (addProduct sampleEnvA sampleFields scenarioState).2 = scenarioState :=
  ⟨by decide!, by decide!,
    (add_then_delete_round_trip sampleEnvA sampleFields scenarioState).2
      (by decide!) (by decide!)⟩

theorem jsOr_jsOr_same (a b : JSVal) : jsOr a (jsOr a b) = jsOr a b := by
  unfold jsOr
  split <;> simp_all

theorem mergeProduct_mergeProduct (t1 t2 : String) (f p : JSObj) :
    mergeProduct t2 f (mergeProduct t1 f p) = mergeProduct t2 f p := by
  funext k
  by_cases h3 : k = "updatedAt"
  · subst h3
    simp [mergeProduct, setProp]
  · by_cases h2 : k = "price"
    · subst h2
      have h := getProp_mergeProduct_price t1 f p
      simp only [mergeProduct, setProp, if_true] at h ⊢
      simp [h, jsOr_jsOr_same, getProp, mergeProduct, setProp]
    · by_cases h1 : k = "stock"
      · subst h1
        simp [mergeProduct, setProp, getProp, jsOr_jsOr_same]
      · rw [mergeProduct_other t2 f _ k h1 h2 h3, mergeProduct_other t2 f p k h1 h2 h3]
        simp only [spread]
        cases hf : f k with
        | some v => rfl
        | none =>
          simp only []
          rw [mergeProduct_other t1 f p k h1 h2 h3]
          simp [spread, hf]

/-- C30: for a field record that does not supply `id`, applying
`updateProduct(id, f)` twice gives the state that the second application alone
gives, and that state differs from the result of the first application alone
at most in the `updatedAt` of the records: every other property of every
record is the same. -/
theorem updateProduct_idempotent (stamp1 stamp2 : Nat → String) (id : JSVal) (f : JSObj)
    (s : StoreState) (hf : f "id" = none) :
    updateProduct stamp2 id f (updateProduct stamp1 id f s) = updateProduct stamp2 id f s ∧
    (updateProduct stamp2 id f s).products.length
      = (updateProduct stamp1 id f s).products.length ∧
    (∀ (i : Nat) (k : String), k ≠ "updatedAt" →
      ((updateProduct stamp2 id f s).products[i]?).map (fun p => p k)
        = ((updateProduct stamp1 id f s).products[i]?).map (fun p => p k)) := by
  refine ⟨?_, by simp [updateProduct], ?_⟩
  · have hprod : (updateProduct stamp2 id f (updateProduct stamp1 id f s)).products
        = (updateProduct stamp2 id f s).products := by
      apply List.ext_getElem?
      intro i
      rw [updateProduct_getElem?, updateProduct_getElem?, updateProduct_getElem?]
      cases s.products[i]? with
      | none => rfl
      | some p =>
        simp only [Option.map_some']
        by_cases hm : matchesId id p = true
        · have hm' : matchesId id (mergeProduct (stamp1 i) f p) = true := by
            simpa [matchesId, getProp_mergeProduct_id_of_not_supplied _ f p hf] using hm
          simp [hm, hm', mergeProduct_mergeProduct]
        · simp [hm]
    cases s with
    | mk products loading error lastFetch =>
      simp only [updateProduct] at hprod ⊢
      simp only [hprod]
  · intro i k hk
    rw [updateProduct_getElem?, updateProduct_getElem?]
    cases s.products[i]? with
    | none => rfl
    | some p =>
      simp only [Option.map_some']
      by_cases hm : matchesId id p = true
      · simp only [hm, if_true]
        congr 1
        by_cases h2 : k = "price"
        · subst h2
          simp [mergeProduct, setProp]
        · by_cases h1 : k = "stock"
          · subst h1
            simp [mergeProduct, setProp]
          · rw [mergeProduct_other _ f p k h1 h2 hk, mergeProduct_other _ f p k h1 h2 hk]
      · simp [hm]

/-- C30, at a concrete input: the form fields applied twice to the phone of
the scenario collection. -/
theorem updateProduct_idempotent_witness :
    sampleFields "id" = none ∧
    updateProduct sampleStamp (JSVal.str "1") sampleFields
        (updateProduct (fun _ => "2023-11-15T07:00:00.000Z") (JSVal.str "1") sampleFields
          scenarioState)
      = updateProduct sampleStamp (JSVal.str "1") sampleFields scenarioState :=
  ⟨by decide,
    (updateProduct_idempotent (fun _ => "2023-11-15T07:00:00.000Z") sampleStamp (JSVal.str "1")
      sampleFields scenarioState (by decide)).1⟩

/-! ### Persistence, authentication and the route guard -/

/-- C23: for every store state, the persisted snapshot holds exactly the keys
`products` and `lastFetch`, and rehydrating the initial state from the
snapshot gives a state with the same `products` and `lastFetch` and with the
defaults `loading = false` and `error = null`, whatever they were before. -/
theorem persist_rehydrate_round_trip (s : StoreState) :
    (partialize s).keys = ["products", "lastFetch"] ∧
    (partialize s).products = some s.products ∧
    (partialize s).lastFetch = some s.lastFetch ∧
    rehydrate initialState (partialize s) =
      { products := s.products, loading := false, error := none, lastFetch := s.lastFetch } :=
  ⟨rfl, rfl, rfl, rfl⟩

theorem translateError_passes_through (message : String)
    (hkey : translations.lookup message = none) (hproto : message ∉ objectPrototypeMembers) :
    translateError message = Translated.text message := by
  simp [translateError, hkey, hproto]

/-- C24: `translateError` returns the paired string for each of the nine
provider messages of the table and returns an unmapped message such as
`"Network error"` unchanged, but for the message `"constructor"`, which is not
a key of the table, it returns the inherited member of that name instead of
the message. -/
theorem translateError_inherited_member :
    translations.lookup "constructor" = none ∧
    translateError "constructor" = Translated.inherited "constructor" ∧
    translateError "constructor" ≠ Translated.text "constructor" ∧
    translateError "Network error" = Translated.text "Network error" ∧
    translations.length = 9 ∧
    translations.all (fun kv => decide (translateError kv.1 = Translated.text kv.2)) = true := by
  decide

/-- C25: `signIn`, `signUp` and `resetPassword` call the identity provider
with the email trimmed of surrounding white space and lower-cased; when the
provider reports an error with message `m`, by its returned value or by
rejecting, the returned value has no data and an error whose message is
`translateError(m)`; when the provider resolves without error, the returned
value holds the data of the provider and `error = null`. -/
theorem auth_calls_normalize_and_translate {δ μ : Type} (rt : JSRuntime)
    (provider : ProviderCall μ → ProviderOutcome δ) (origin email password : String)
    (metadata : μ) :
    (signIn rt provider email password).sent
      = ProviderCall.signInWithPassword (rt.toLowerCase (trim email)) password ∧
    (signUp rt provider email password metadata).sent
      = ProviderCall.signUp (rt.toLowerCase (trim email)) password metadata ∧
    (resetPassword rt provider origin email).sent
      = ProviderCall.resetPasswordForEmail (rt.toLowerCase (trim email))
          (origin ++ "/reset-password") ∧
    (signIn rt provider email password).result
      = settle (provider (signIn rt provider email password).sent) ∧
    (signUp rt provider email password metadata).result
      = settle (provider (signUp rt provider email password metadata).sent) ∧
    (resetPassword rt provider origin email).result
      = settle (provider (resetPassword rt provider origin email).sent) ∧
    (∀ (d : δ) (m : String),
      settle (ProviderOutcome.resolved d (some m))
        = { data := none, error := some (translateError m) }) ∧
    (∀ m : String,
      (settle (ProviderOutcome.rejected m) : AuthResult δ)
        = { data := none, error := some (translateError m) }) ∧
    (∀ d : δ, settle (ProviderOutcome.resolved d none) = { data := some d, error := none }) :=
  ⟨rfl, rfl, rfl, rfl, rfl, rfl, fun _ _ => rfl, fun _ => rfl, fun _ => rfl⟩

/-- C26: for every auth state and location, `ProtectedRoute` renders the
children exactly when `loading` is false and a user is present; while
`loading` is true it renders the loading indicator, and when `loading` is
false and there is no user it renders a `Navigate` to the login route that
carries the requested location. -/
theorem protectedRoute_spec {χ loc υ : Type} (children : χ) (user : Option υ)
    (loading : Bool) (location : loc) (u : υ) :
    (ProtectedRoute children defaultRedirectTo user loading location
        = Rendered.children children ↔ loading = false ∧ user.isSome = true) ∧
    ProtectedRoute children defaultRedirectTo user true location = Rendered.authLoading ∧
    ProtectedRoute children defaultRedirectTo (none : Option υ) false location
      = Rendered.navigate "/login" location true ∧
    ProtectedRoute children defaultRedirectTo (some u) false location
      = Rendered.children children := by
  refine ⟨?_, rfl, rfl, rfl⟩
  cases loading <;> cases user <;> simp [ProtectedRoute]

/-! ### The product listing -/

theorem viewSearchMatches_of_text (rt : JSRuntime) (term : String) (p : JSObj)
    (h : isTextOrMissing (getProp p "title") = true ∧
      isTextOrMissing (getProp p "brand") = true ∧
      isTextOrMissing (getProp p "description") = true) :
    viewSearchMatches rt term p = some
      (containsIgnoringCase rt term (getProp p "title") ||
        (containsIgnoringCase rt term (getProp p "brand") ||
          containsIgnoringCase rt term (getProp p "description"))) := by
  unfold viewSearchMatches
  rw [fieldIncludes_of_text rt term _ h.1, fieldIncludes_of_text rt term _ h.2.1,
    fieldIncludes_of_text rt term _ h.2.2]
  exact orElseTest_some _ _ _ (orElseTest_some _ _ _ rfl)

theorem strictEq_str (a : JSVal) (c : String) :
    strictEq a (JSVal.str c) = decide (a = JSVal.str c) := by
  cases a with
  | num n => cases n <;> simp [strictEq]
  | undefined => simp [strictEq]
  | null => simp [strictEq]
  | bool b => simp [strictEq]
  | str s => simp [strictEq]

theorem comparator_default (rt : JSRuntime) (lc : String → String → Int) :
    comparator rt lc "default" = none := by
  simp [comparator]

/-- C21: with the key `default`, for a collection whose titles, brands and
descriptions are strings or missing, the listing returns without throwing, in
collection order, exactly the products that contain the lower-cased search
text in their lower-cased title, brand or description (every product when the
search text is blank) and whose category is strictly equal to the selected
category (every product when no category is selected); with a blank search
text and no category the output is the collection. -/
theorem filteredProducts_default (rt : JSRuntime) (lc : String → String → Int)
    (s : StoreState) (q c : String)
    (h : ∀ p ∈ s.products, isTextOrMissing (getProp p "title") = true ∧
      isTextOrMissing (getProp p "brand") = true ∧
      isTextOrMissing (getProp p "description") = true) :
    filteredProducts rt lc s q c "default" = some
      ((s.products.filter (fun p =>
          decide (trim q = "") ||
            (containsIgnoringCase rt (rt.toLowerCase q) (getProp p "title") ||
              (containsIgnoringCase rt (rt.toLowerCase q) (getProp p "brand") ||
                containsIgnoringCase rt (rt.toLowerCase q) (getProp p "description"))))).filter
        (fun p => decide (c = "") || decide (getProp p "category" = JSVal.str c))) ∧
    (trim q = "" → filteredProducts rt lc s q "" "default" = some s.products) := by
  have hsearch : (if trim q ≠ "" then
        filterThrow (fun p => viewSearchMatches rt (rt.toLowerCase q) p) s.products
      else some s.products) = some (s.products.filter (fun p =>
          decide (trim q = "") ||
            (containsIgnoringCase rt (rt.toLowerCase q) (getProp p "title") ||
              (containsIgnoringCase rt (rt.toLowerCase q) (getProp p "brand") ||
                containsIgnoringCase rt (rt.toLowerCase q) (getProp p "description"))))) := by
    by_cases ht : trim q = ""
    · simp [ht]
    · simp only [ne_eq, ht, not_false_eq_true, if_true, decide_False, Bool.false_or]
      exact filterThrow_eq_filter _ _ _
        (fun p hp => viewSearchMatches_of_text rt _ p (h p hp))
  constructor
  · unfold filteredProducts
    simp only [hsearch, comparator_default]
    by_cases hc : c = ""
    · simp [hc]
    · simp [hc, strictEq_str]
  · intro ht
    unfold filteredProducts
    simp [ht, comparator_default]

/-- C21, at concrete inputs: on the scenario collection the search text
`"PHO"` with the category `"tech"` gives the product with id `1`, and a blank
search text without category gives the collection. -/
theorem filteredProducts_default_witness :
    (∀ p ∈ scenarioState.products, isTextOrMissing (getProp p "title") = true ∧
      isTextOrMissing (getProp p "brand") = true ∧
      isTextOrMissing (getProp p "description") = true) ∧
    (filteredProducts sampleRuntime sampleLocaleCompare scenarioState "PHO" "tech" "default").map
      (fun l => l.map (fun p => getProp p "id")) = some [JSVal.ofInt 1] ∧
    trim "  " = "" ∧
    filteredProducts sampleRuntime sampleLocaleCompare scenarioState "  " "" "default"
      = some scenarioState.products :=
  ⟨by decide, by decide!, by decide,
    (filteredProducts_default sampleRuntime sampleLocaleCompare scenarioState "  " ""
      (by decide)).2 (by decide)⟩

theorem orderedInsertThrow_eq (rt : JSRuntime) (cmp : JSObj → JSObj → Option JSVal)
    (r : JSObj → JSObj → Prop) [DecidableRel r] (a : JSObj) :
    ∀ l : List JSObj,
      (∀ y ∈ l, ∃ v, cmp a y = some v ∧ (keepsOrder rt v = true ↔ r a y)) →
      orderedInsertThrow rt cmp a l = some (List.orderedInsert r a l) := by
  intro l
  induction l with
  | nil => intro _; rfl
  | cons b l ih =>
    intro h
    obtain ⟨v, hv, hk⟩ := h b (List.mem_cons_self _ _)
    have ih' := ih (fun y hy => h y (List.mem_cons_of_mem _ hy))
    by_cases hr : r a b
    · simp [orderedInsertThrow, hv, hk.mpr hr, List.orderedInsert, hr]
    · have hk' : keepsOrder rt v = false := by
        cases hkv : keepsOrder rt v with
        | false => rfl
        | true => exact absurd (hk.mp hkv) hr
      simp [orderedInsertThrow, hv, hk', ih', List.orderedInsert, hr]

theorem sortThrow_eq_insertionSort (rt : JSRuntime) (cmp : JSObj → JSObj → Option JSVal)
    (r : JSObj → JSObj → Prop) [DecidableRel r] :
    ∀ l : List JSObj,
      (∀ x ∈ l, ∀ y ∈ l, ∃ v, cmp x y = some v ∧ (keepsOrder rt v = true ↔ r x y)) →
      sortThrow rt cmp l = some (l.insertionSort r) := by
  intro l
  induction l with
  | nil => intro _; rfl
  | cons b l ih =>
    intro h
    have ih' := ih (fun x hx y hy =>
      h x (List.mem_cons_of_mem _ hx) y (List.mem_cons_of_mem _ hy))
    simp only [sortThrow, ih', List.insertionSort]
    apply orderedInsertThrow_eq
    intro y hy
    exact h b (List.mem_cons_self _ _) y
      (List.mem_cons_of_mem _ ((List.mem_insertionSort r).mp hy))

/-- A sort whose comparator agrees, on the elements of the list, with a total
and transitive order returns a sorted permutation of the list. -/
theorem sortThrow_sorted (rt : JSRuntime) (cmp : JSObj → JSObj → Option JSVal)
    (r : JSObj → JSObj → Prop) (htotal : ∀ x y, r x y ∨ r y x)
    (htrans : ∀ x y z, r x y → r y z → r x z) (l : List JSObj)
    (h : ∀ x ∈ l, ∀ y ∈ l, ∃ v, cmp x y = some v ∧ (keepsOrder rt v = true ↔ r x y)) :
    ∃ out, sortThrow rt cmp l = some out ∧ out.Perm l ∧ out.Pairwise r := by
  classical
  haveI : IsTotal JSObj r := ⟨htotal⟩
  haveI : IsTrans JSObj r := ⟨htrans⟩
  exact ⟨l.insertionSort r, sortThrow_eq_insertionSort rt cmp r l h,
    List.perm_insertionSort r l, List.sorted_insertionSort r l⟩

theorem keepsOrder_compareNumbers (rt : JSRuntime) (k : String) (x y : JSObj)
    (hx : isNumberOrMissing (getProp x k) = true) (hy : isNumberOrMissing (getProp y k) = true) :
    keepsOrder rt (compareNumbers rt k x y) = true ↔
      valueOrZero (getProp x k) ≤ valueOrZero (getProp y k) := by
  unfold compareNumbers
  rw [jsOr_zero_of_numberOrMissing _ hx, jsOr_zero_of_numberOrMissing _ hy]
  simp [keepsOrder, jsSub, toNumber, JSNum.sub, JSNum.neg, JSNum.add, JSNum.lt]

theorem jsOr_title_of_text (v : JSVal) (h : isTextOrMissing v = true) :
    jsOr v (JSVal.str "") = JSVal.str (titleOrEmpty v) := by
  cases v with
  | undefined => rfl
  | null => rfl
  | bool b => simp [isTextOrMissing] at h
  | num n => simp [isTextOrMissing] at h
  | str t =>
    by_cases ht : t = ""
    · simp [jsOr, JSVal.truthy, titleOrEmpty, ht]
    · simp [jsOr, JSVal.truthy, titleOrEmpty, ht]

theorem keepsOrder_compareTitles (rt : JSRuntime) (lc : String → String → Int) (x y : JSObj)
    (hx : isTextOrMissing (getProp x "title") = true)
    (hy : isTextOrMissing (getProp y "title") = true) :
    ∃ v, compareTitles rt lc x y = some v ∧
      (keepsOrder rt v = true ↔
        lc (titleOrEmpty (getProp x "title")) (titleOrEmpty (getProp y "title")) ≤ 0) := by
  refine ⟨JSVal.ofInt (lc (titleOrEmpty (getProp x "title"))
    (titleOrEmpty (getProp y "title"))), ?_, ?_⟩
  · simp [compareTitles, jsOr_title_of_text _ hx, jsOr_title_of_text _ hy, toStr]
  · simp [keepsOrder, toNumber, JSVal.ofInt, JSNum.lt]

theorem filteredProducts_of_default (rt : JSRuntime) (lc : String → String → Int)
    (s : StoreState) (q c key : String) (fl : List JSObj)
    (hfl : filteredProducts rt lc s q c "default" = some fl) :
    filteredProducts rt lc s q c key =
      match comparator rt lc key with
      | some cmp => sortThrow rt cmp fl
      | none => some fl := by
  unfold filteredProducts at hfl ⊢
  cases hsearch : (if trim q ≠ "" then
      filterThrow (fun p => viewSearchMatches rt (rt.toLowerCase q) p) s.products
    else some s.products) with
  | none => simp [hsearch] at hfl
  | some r =>
    simp only [hsearch, comparator_default, Option.some.injEq] at hfl ⊢
    rw [hfl]

/-- C22: let `fl` be the filtered sequence, the output of the listing with the
key `default`, and let its prices, ratings and stocks be finite numbers or
missing, its titles strings or missing, and `localeCompare` a total and
transitive order.  For each of the keys `price-asc`, `price-desc`, `name-asc`,
`name-desc`, `rating` and `stock` the listing returns without throwing a
permutation of `fl` that is ordered by price ascending, price descending,
title ascending, title descending, rating descending and stock descending
respectively, a missing price, rating or stock counted as `0` and a missing
title as the empty string. -/
theorem filteredProducts_sorted (rt : JSRuntime) (lc : String → String → Int)
    (s : StoreState) (q c : String) (fl : List JSObj)
    (hfl : filteredProducts rt lc s q c "default" = some fl)
    (hnum : ∀ p ∈ fl, isNumberOrMissing (getProp p "price") = true ∧
      isNumberOrMissing (getProp p "rating") = true ∧
      isNumberOrMissing (getProp p "stock") = true)
    (htitle : ∀ p ∈ fl, isTextOrMissing (getProp p "title") = true)
    (htotal : ∀ a b, lc a b ≤ 0 ∨ lc b a ≤ 0)
    (htrans : ∀ a b d, lc a b ≤ 0 → lc b d ≤ 0 → lc a d ≤ 0) :
    (∃ out, filteredProducts rt lc s q c "price-asc" = some out ∧ out.Perm fl ∧
      out.Pairwise (fun x y =>
        valueOrZero (getProp x "price") ≤ valueOrZero (getProp y "price"))) ∧
    (∃ out, filteredProducts rt lc s q c "price-desc" = some out ∧ out.Perm fl ∧
      out.Pairwise (fun x y =>
        valueOrZero (getProp y "price") ≤ valueOrZero (getProp x "price"))) ∧
    (∃ out, filteredProducts rt lc s q c "name-asc" = some out ∧ out.Perm fl ∧
      out.Pairwise (fun x y =>
        lc (titleOrEmpty (getProp x "title")) (titleOrEmpty (getProp y "title")) ≤ 0)) ∧
    (∃ out, filteredProducts rt lc s q c "name-desc" = some out ∧ out.Perm fl ∧
      out.Pairwise (fun x y =>
        lc (titleOrEmpty (getProp y "title")) (titleOrEmpty (getProp x "title")) ≤ 0)) ∧
    (∃ out, filteredProducts rt lc s q c "rating" = some out ∧ out.Perm fl ∧
      out.Pairwise (fun x y =>
        valueOrZero (getProp y "rating") ≤ valueOrZero (getProp x "rating"))) ∧
    (∃ out, filteredProducts rt lc s q c "stock" = some out ∧ out.Perm fl ∧
      out.Pairwise (fun x y =>
        valueOrZero (getProp y "stock") ≤ valueOrZero (getProp x "stock"))) := by
  refine ⟨?_, ?_, ?_, ?_, ?_, ?_⟩
  · rw [filteredProducts_of_default rt lc s q c "price-asc" fl hfl]
    simp only [comparator, if_true]
    exact sortThrow_sorted rt _
      (fun x y => valueOrZero (getProp x "price") ≤ valueOrZero (getProp y "price"))
      (fun x y => le_total _ _)
      (fun x y z hxy hyz => le_trans hxy hyz) fl
      (fun x hx y hy => ⟨_, rfl,
        keepsOrder_compareNumbers rt "price" x y (hnum x hx).1 (hnum y hy).1⟩)
  · rw [filteredProducts_of_default rt lc s q c "price-desc" fl hfl]
    simp only [comparator, if_true, if_false, String.reduceEq]
    exact sortThrow_sorted rt _
      (fun x y => valueOrZero (getProp y "price") ≤ valueOrZero (getProp x "price"))
      (fun x y => le_total _ _)
      (fun x y z hxy hyz => le_trans hyz hxy) fl
      (fun x hx y hy => ⟨_, rfl,
        keepsOrder_compareNumbers rt "price" y x (hnum y hy).1 (hnum x hx).1⟩)
  · rw [filteredProducts_of_default rt lc s q c "name-asc" fl hfl]
    simp only [comparator, if_true, if_false, String.reduceEq]
    exact sortThrow_sorted rt _
      (fun x y => lc (titleOrEmpty (getProp x "title")) (titleOrEmpty (getProp y "title")) ≤ 0)
      (fun x y => htotal _ _)
      (fun x y z hxy hyz => htrans _ _ _ hxy hyz) fl
      (fun x hx y hy => keepsOrder_compareTitles rt lc x y (htitle x hx) (htitle y hy))
  · rw [filteredProducts_of_default rt lc s q c "name-desc" fl hfl]
    simp only [comparator, if_true, if_false, String.reduceEq]
    exact sortThrow_sorted rt _
      (fun x y => lc (titleOrEmpty (getProp y "title")) (titleOrEmpty (getProp x "title")) ≤ 0)
      (fun x y => htotal _ _)
      (fun x y z hxy hyz => htrans _ _ _ hyz hxy) fl
      (fun x hx y hy => keepsOrder_compareTitles rt lc y x (htitle y hy) (htitle x hx))
  · rw [filteredProducts_of_default rt lc s q c "rating" fl hfl]
    simp only [comparator, if_true, if_false, String.reduceEq]
    exact sortThrow_sorted rt _
      (fun x y => valueOrZero (getProp y "rating") ≤ valueOrZero (getProp x "rating"))
      (fun x y => le_total _ _)
      (fun x y z hxy hyz => le_trans hyz hxy) fl
      (fun x hx y hy => ⟨_, rfl,
        keepsOrder_compareNumbers rt "rating" y x (hnum y hy).2.1 (hnum x hx).2.1⟩)
  · rw [filteredProducts_of_default rt lc s q c "stock" fl hfl]
    simp only [comparator, if_true, if_false, String.reduceEq]
    exact sortThrow_sorted rt _
      (fun x y => valueOrZero (getProp y "stock") ≤ valueOrZero (getProp x "stock"))
      (fun x y => le_total _ _)
      (fun x y z hxy hyz => le_trans hyz hxy) fl
      (fun x hx y hy => ⟨_, rfl,
        keepsOrder_compareNumbers rt "stock" y x (hnum y hy).2.2 (hnum x hx).2.2⟩)

theorem sampleLocaleCompare_le_iff (a b : String) :
    sampleLocaleCompare a b ≤ 0 ↔ strLe a b = true := by
  unfold sampleLocaleCompare strLt
  rcases unitsLe_total (utf16Units a) (utf16Units b) with h | h
  · by_cases h2 : strLe b a = true
    · simp [strLe, h, h2] at *
      simp [h2]
    · simp [strLe, h] at *
      simp [h2]
  · by_cases h2 : strLe a b = true
    · simp [strLe, h, h2] at *
      simp [h2]
    · have hb : strLe b a = true := h
      simp [hb, h2]

/-- C22, at a concrete input: on the scenario collection, without search text
and category, the key `price-desc` gives the phone (price `100`) and then the
desk (price `50`). -/
theorem filteredProducts_sorted_witness :
    filteredProducts sampleRuntime sampleLocaleCompare scenarioState "" "" "default"
      = some scenarioState.products ∧
    (filteredProducts sampleRuntime sampleLocaleCompare scenarioState "" "" "price-desc").map
      (fun l => l.map (fun p => (getProp p "title", getProp p "price")))
      = some [(JSVal.str "Phone", JSVal.ofInt 100), (JSVal.str "Desk", JSVal.ofInt 50)] ∧
    (∃ out, filteredProducts sampleRuntime sampleLocaleCompare scenarioState "" "" "price-desc"
        = some out ∧ out.Perm scenarioState.products ∧
      out.Pairwise (fun x y =>
        valueOrZero (getProp y "price") ≤ valueOrZero (getProp x "price"))) :=
  ⟨rfl, by decide!,
    (filteredProducts_sorted sampleRuntime sampleLocaleCompare scenarioState "" ""
      scenarioState.products rfl (by decide) (by decide)
      (fun a b => by
        rw [sampleLocaleCompare_le_iff, sampleLocaleCompare_le_iff]
        exact unitsLe_total _ _)
      (fun a b d hab hbd => by
        rw [sampleLocaleCompare_le_iff] at *
        exact unitsLe_trans _ _ _ hab hbd)).2.1⟩

end ProductStore
